import Mathlib

set_option maxRecDepth 40000

/-!
Shallow embedding of the SEC 8-K reduction pipeline (src/analyzer.py and the
file-loading branch of src/edgar.py) together with proofs settling the frozen
claims about its specification.

Modelling conventions:
* Python strings are Lean `String`s; character-level work happens on `List Char`.
* The keyword weights 1.5, 1.3, 1.4, 1.2, 1.1 are Python floats with one
  decimal digit; they are modelled exactly as naturals scaled by ten
  (15, 13, 14, 12, 11), and the threshold 1.5 becomes 15. Every sum and
  threshold comparison the claims touch is exact in this scale. Likewise the
  cost constants of analyze_8k are modelled in exact nanodollars.
* External collaborators (BeautifulSoup parsing, the tiktoken encoder, the LLM
  call, gzip decompression, JSON parsing, hash-dependent `set` iteration order,
  and the wall clock) are parameters of the embedded functions.
* Regular expressions are embedded via an executable backtracking engine over
  an explicit syntax tree; each pattern of the source is transcribed as a tree.
-/

/-- Python `\s` on `str` (as used by `strip`, `\s` classes): ASCII whitespace
plus the no-break space, the only non-ASCII whitespace occurring here. -/
def pyIsWs (c : Char) : Bool :=
  c = ' ' || c = '\t' || c = '\n' || c = '\r' || c = '\x0b' || c = '\x0c' || c = '\xa0'

/-- Python `str.isdigit` restricted to ASCII, which is all the source feeds it. -/
def pyIsDigit (c : Char) : Bool :=
  '0' ≤ c && c ≤ '9'

/-- Python `\w` word characters (ASCII range, sufficient for the matched texts). -/
def pyIsWord (c : Char) : Bool :=
  pyIsDigit c || ('a' ≤ c && c ≤ 'z') || ('A' ≤ c && c ≤ 'Z') || c = '_'

/-- Python `str.lower` (ASCII case folding; the keywords and patterns are ASCII). -/
def lowerStr (s : String) : String :=
  ⟨s.data.map Char.toLower⟩

/-- Python `str.strip` with no argument: drop whitespace from both ends. -/
def stripChars (cs : List Char) : List Char :=
  ((cs.dropWhile pyIsWs).reverse.dropWhile pyIsWs).reverse

/-- String-level version of `stripChars`. -/
def stripStr (s : String) : String :=
  ⟨stripChars s.data⟩

/-- Does the second list start with the first one. -/
def startsWithChars : List Char → List Char → Bool
  | [], _ => true
  | _ :: _, [] => false
  | a :: as, b :: bs => a = b && startsWithChars as bs

/-- Python substring containment `needle in hay` on character lists. -/
def isSubstrChars (n : List Char) : List Char → Bool
  | [] => startsWithChars n []
  | c :: t => startsWithChars n (c :: t) || isSubstrChars n t

/-- Python substring containment on strings. -/
def isSubstr (needle hay : String) : Bool :=
  isSubstrChars needle.data hay.data

/-- CRITICAL_KEYWORDS of src/analyzer.py: category name, keyword list, weight
in tenths (so 15 stands for the source weight 1.5). -/
def CRITICAL_KEYWORDS : List (String × List String × Nat) :=
  [("merger_acquisition",
    (["merger", "acquisition", "agreement", "definitive", "purchase", "sale",
      "disposition", "divestiture"], 15)),
   ("executive_changes",
    (["resign", "appointment", "terminate", "ceo", "cfo", "director",
      "president", "officer", "retire"], 13)),
   ("financial_events",
    (["earnings", "revenue", "loss", "dividend", "bankruptcy", "impairment",
      "writedown", "restructuring"], 14)),
   ("material_agreements",
    (["material definitive agreement", "joint venture", "partnership",
      "contract", "license"], 12)),
   ("legal_regulatory",
    (["lawsuit", "settlement", "regulatory", "compliance", "investigation",
      "sec", "doj"], 11))]

/-- Stable insertion into a list kept in descending keyword-length order: the
new element goes after every element of length greater than or equal to its
own, preserving original order among equal lengths. -/
def insertByLenDesc (x : String × Nat) : List (String × Nat) → List (String × Nat)
  | [] => [x]
  | y :: ys => if y.1.length < x.1.length then x :: y :: ys else y :: insertByLenDesc x ys

/-- Stable sort by descending keyword length, the documented semantics of
Python `list.sort(key=len, reverse=True)`. -/
def sortByLenDesc (l : List (String × Nat)) : List (String × Nat) :=
  l.foldl (fun acc x => insertByLenDesc x acc) []

/-- ALL_KEYWORDS of src/analyzer.py: the flattened (lowercased keyword, weight)
pairs, stably sorted by descending keyword length. -/
def ALL_KEYWORDS : List (String × Nat) :=
  sortByLenDesc ((CRITICAL_KEYWORDS.map (fun cat => cat.2.1.map (fun kw => (lowerStr kw, cat.2.2)))).flatten)

/-- Weighted-sentence score of src/analyzer.py lines 413-417: every keyword of
ALL_KEYWORDS whose text occurs in the lowercased sentence adds its weight. -/
def sentWeight (sent : String) : Nat :=
  ALL_KEYWORDS.foldl
    (fun total kw => if isSubstr kw.1 (lowerStr sent) then total + kw.2 else total) 0

/-- Claim-side definition, following C3's wording: the sum, over keyword
categories, of the weight of each category that has at least one keyword
occurring as a case-insensitive substring — each category counted at most once.
This is compared against `sentWeight`, the scorer the code implements. -/
def claimCategoryOnceScore (sent : String) : Nat :=
  CRITICAL_KEYWORDS.foldl
    (fun acc cat =>
      if cat.2.1.any (fun kw => isSubstr kw (lowerStr sent)) then acc + cat.2.2 else acc) 0

/-- Amended-claim definition for C3: each category contributes its weight once
per occurring keyword (a tally, not an at-most-once indicator). -/
def categoryTallyScore (sent : String) : Nat :=
  CRITICAL_KEYWORDS.foldl
    (fun acc cat =>
      acc + cat.2.2 *
        (cat.2.1.foldl (fun n kw => if isSubstr kw (lowerStr sent) then n + 1 else n) 0)) 0

/-- Amended-claim definition for C4: the score computed over the flattened,
unsorted keyword list, witnessing that the longest-first sort of ALL_KEYWORDS
has no effect on the aggregate weight. -/
def unsortedKeywordScore (sent : String) : Nat :=
  ((CRITICAL_KEYWORDS.map (fun cat => cat.2.1.map (fun kw => (kw, cat.2.2)))).flatten).foldl
    (fun total kw => if isSubstr kw.1 (lowerStr sent) then total + kw.2 else total) 0

/-- Folding an accumulate-if-matched body equals the starting value plus the sum
of the matched weights. -/
theorem foldl_if_add_eq (l : List α) (q : α → Bool) (w : α → Nat) (a : Nat) :
    l.foldl (fun acc x => if q x then acc + w x else acc) a
      = a + (l.map (fun x => if q x then w x else 0)).sum := by
  induction l generalizing a with
  | nil => simp
  | cons x xs ih =>
    simp only [List.foldl, List.map, List.sum_cons]
    rw [ih]
    by_cases h : q x = true
    · simp [h]
      ring
    · simp [h]

/-- The scorer of the code as an explicit sum over ALL_KEYWORDS. -/
theorem sentWeight_eq_sum (sent : String) :
    sentWeight sent
      = (ALL_KEYWORDS.map
          (fun kw => if isSubstr kw.1 (lowerStr sent) then kw.2 else 0)).sum := by
  simpa [sentWeight] using
    foldl_if_add_eq ALL_KEYWORDS (fun kw => isSubstr kw.1 (lowerStr sent)) (fun kw => kw.2) 0

/-- The unsorted score as an explicit sum over the flattened keyword list. -/
theorem unsortedKeywordScore_eq_sum (sent : String) :
    unsortedKeywordScore sent
      = (((CRITICAL_KEYWORDS.map (fun cat => cat.2.1.map (fun kw => (kw, cat.2.2)))).flatten).map
          (fun kw => if isSubstr kw.1 (lowerStr sent) then kw.2 else 0)).sum := by
  simpa [unsortedKeywordScore] using
    foldl_if_add_eq ((CRITICAL_KEYWORDS.map (fun cat => cat.2.1.map (fun kw => (kw, cat.2.2)))).flatten)
      (fun kw => isSubstr kw.1 (lowerStr sent)) (fun kw => kw.2) 0

/-- ALL_KEYWORDS evaluated: stable descending-length order of the 37 pairs. -/
theorem ALL_KEYWORDS_eq :
    ALL_KEYWORDS =
      [("material definitive agreement", 12),
       ("restructuring", 14), ("joint venture", 12), ("investigation", 11),
       ("acquisition", 15), ("disposition", 15), ("divestiture", 15),
       ("appointment", 13), ("partnership", 12),
       ("definitive", 15), ("bankruptcy", 14), ("impairment", 14),
       ("settlement", 11), ("regulatory", 11), ("compliance", 11),
       ("agreement", 15), ("terminate", 13), ("president", 13), ("writedown", 14),
       ("purchase", 15), ("director", 13), ("earnings", 14), ("dividend", 14),
       ("contract", 12),
       ("officer", 13), ("revenue", 14), ("license", 12), ("lawsuit", 11),
       ("merger", 15), ("resign", 13), ("retire", 13),
       ("sale", 15), ("loss", 14),
       ("ceo", 13), ("cfo", 13), ("sec", 11), ("doj", 11)] := by
  decide

/-- Sentence used to refute C3: it is at least 40 characters long and contains
the keywords merger and acquisition, both from the merger_acquisition
category (weight 1.5), and no keyword of any other category. -/
def c3Sentence : String :=
  "the merger and the acquisition were announced today"

/-- Claim C3 fails on the code: the claim predicts that a category contributes
its weight at most once (score 1.5, scaled 15, for this sentence), but the
scorer adds the weight once per matching keyword, yielding 3.0 (scaled 30). -/
theorem c3_counterexample :
    40 ≤ c3Sentence.length ∧
    sentWeight c3Sentence = 30 ∧
    claimCategoryOnceScore c3Sentence = 15 ∧
    sentWeight c3Sentence ≠ claimCategoryOnceScore c3Sentence := by
  decide

/-- Amended C3: the aggregate score is the sum over categories of the category
weight multiplied by the number of that category's keywords occurring in the
sentence — each matching keyword contributes separately. -/
theorem c3_amended (sent : String) : sentWeight sent = categoryTallyScore sent := by
  rw [sentWeight_eq_sum, ALL_KEYWORDS_eq]
  unfold categoryTallyScore CRITICAL_KEYWORDS
  simp only [foldl_if_add_eq, List.foldl_cons, List.foldl_nil, List.map_cons, List.map_nil,
    List.sum_cons, List.sum_nil, Nat.mul_add, mul_ite, ite_mul, mul_one, mul_zero, one_mul,
    zero_mul, Nat.add_zero, Nat.zero_add]
  ring

/-- Removal of the first occurrence of a needle from a character list; used to
check that a shorter keyword occurs only inside the occurrence of a longer
phrase (deleting the phrase deletes every occurrence of the shorter keyword). -/
def dropFirstOccur (needle : List Char) : List Char → List Char
  | [] => []
  | c :: t =>
    if startsWithChars needle (c :: t) then (c :: t).drop needle.length
    else c :: dropFirstOccur needle t

/-- Sentence used to refute C4: it contains the phrase keyword
material definitive agreement (weight 1.2) and, only inside that phrase, the
shorter keywords definitive (1.5) and agreement (1.5) of another category. -/
def c4Sentence : String :=
  "the material definitive agreement was signed by zzz"

/-- Claim C4 fails on the code: although ALL_KEYWORDS is sorted longest-first,
each keyword is tested independently, so the shorter keywords occurring only
inside the longer phrase still contribute: the score is 4.2 (scaled 42), not
the 1.2 (scaled 12) the no-double-counting claim predicts. The second and
third conjuncts certify that deleting the phrase from the sentence removes
every occurrence of the two shorter keywords. -/
theorem c4_counterexample :
    isSubstr "material definitive agreement" (lowerStr c4Sentence) = true ∧
    isSubstrChars "definitive".data
      (dropFirstOccur "material definitive agreement".data (lowerStr c4Sentence).data) = false ∧
    isSubstrChars "agreement".data
      (dropFirstOccur "material definitive agreement".data (lowerStr c4Sentence).data) = false ∧
    sentWeight c4Sentence = 42 ∧
    sentWeight c4Sentence ≠ 12 := by
  decide

/-- Amended C4: ALL_KEYWORDS is indeed pre-sorted by descending keyword length,
but the sort has no effect on scoring — the aggregate weight equals the score
computed over the unsorted flattened keyword list, every matching keyword
contributing its weight independently of overlaps. -/
theorem c4_amended :
    List.Pairwise (fun a b : String × Nat => b.1.length ≤ a.1.length) ALL_KEYWORDS ∧
    ∀ sent : String, sentWeight sent = unsortedKeywordScore sent := by
  constructor
  · decide
  · intro sent
    rw [sentWeight_eq_sum, unsortedKeywordScore_eq_sum, ALL_KEYWORDS_eq]
    unfold CRITICAL_KEYWORDS
    simp only [List.map_cons, List.map_nil, List.flatten, List.append_nil, List.cons_append,
      List.nil_append, List.sum_cons, List.sum_nil]
    ring

/-- Regular-expression syntax covering every construct the source patterns use:
case-insensitive literals (all patterns are compiled with IGNORECASE or are
symbol-only), character classes, sequencing, ordered alternation, greedy and
lazy star, greedy option, lookahead, the end anchor, and one capture group. -/
inductive RE where
  | eps
  | lit (c : Char)
  | cls (p : Char → Bool)
  | seq (a b : RE)
  | alt (a b : RE)
  | starG (a : RE)
  | starL (a : RE)
  | optG (a : RE)
  | look (a : RE)
  | eos
  | grp (a : RE)

/-- Case-insensitive character comparison used for literals. -/
def lowEq (a b : Char) : Bool :=
  a.toLower = b.toLower

/-- Result of a match attempt: remaining suffix and the captured group. -/
abbrev MRes := Option (List Char × Option (List Char))

/-- Backtracking matcher in continuation-passing style, exploring alternatives
in Python's preference order (left alternative first, greedy repetition takes
more first, lazy repetition takes less first). The fuel bounds the nesting
depth of the exploration; the driver supplies enough for the pattern sizes and
subject lengths at hand. -/
def mrun : Nat → RE → List Char → Option (List Char) →
    (List Char → Option (List Char) → MRes) → MRes
  | 0, _, _, _, _ => none
  | _+1, .eps, s, cap, k => k s cap
  | _+1, .lit c, s, cap, k =>
    match s with
    | [] => none
    | a :: t => if lowEq a c then k t cap else none
  | _+1, .cls p, s, cap, k =>
    match s with
    | [] => none
    | a :: t => if p a then k t cap else none
  | f+1, .seq x y, s, cap, k => mrun f x s cap (fun s2 c2 => mrun f y s2 c2 k)
  | f+1, .alt x y, s, cap, k =>
    (mrun f x s cap k).orElse (fun _ => mrun f y s cap k)
  | f+1, .starG x, s, cap, k =>
    (mrun f x s cap (fun s2 c2 => mrun f (.starG x) s2 c2 k)).orElse (fun _ => k s cap)
  | f+1, .starL x, s, cap, k =>
    (k s cap).orElse (fun _ => mrun f x s cap (fun s2 c2 => mrun f (.starL x) s2 c2 k))
  | f+1, .optG x, s, cap, k => (mrun f x s cap k).orElse (fun _ => k s cap)
  | f+1, .look x, s, cap, k =>
    match mrun f x s cap (fun s2 c2 => some (s2, c2)) with
    | some _ => k s cap
    | none => none
  | _+1, .eos, s, cap, k =>
    match s with
    | [] => k s cap
    | ['\n'] => k s cap
    | _ => none
  | f+1, .grp x, s, cap, k =>
    mrun f x s cap (fun s2 _ => k s2 (some (s.take (s.length - s2.length))))

/-- Anchored match attempt at the start of the subject, with generous fuel. -/
def runRE (re : RE) (s : List Char) : MRes :=
  mrun (4 * s.length + 400) re s none (fun s2 c2 => some (s2, c2))

/-- Result of one findall match: the captured group when the pattern has one,
the whole matched text otherwise. -/
def findAllRes (s rest : List Char) (cap : Option (List Char)) : List Char :=
  match cap with
  | some g => g
  | none => s.take (s.length - rest.length)

/-- Iterated scanning step of re.findall: try a match at the current position;
on success emit the group (or the whole match when the pattern has no group)
and continue after it, advancing one character after an empty match; on
failure slide one character forward. -/
def findAllAux (re : RE) : Nat → List Char → List (List Char)
  | 0, _ => []
  | n+1, s =>
    match runRE re s, s with
    | none, [] => []
    | none, _ :: t => findAllAux re n t
    | some r, [] => [findAllRes [] r.1 r.2]
    | some r, a :: t =>
      if (a :: t).length - r.1.length = 0 then
        findAllRes (a :: t) r.1 r.2 :: findAllAux re n t
      else findAllRes (a :: t) r.1 r.2 :: findAllAux re n r.1

/-- Python re.findall over the embedded pattern language. -/
def findAll (re : RE) (s : List Char) : List String :=
  (findAllAux re (s.length + 1) s).map (fun cs => (⟨cs⟩ : String))

/-- Sequencing a list of patterns. -/
def seqs : List RE → RE
  | [] => .eps
  | [x] => x
  | x :: xs => .seq x (seqs xs)

/-- Ordered alternation of a list of patterns (empty list never matches). -/
def alts : List RE → RE
  | [] => .cls (fun _ => false)
  | [x] => x
  | x :: xs => .alt x (alts xs)

/-- Literal string pattern, one case-insensitive literal per character. -/
def strRE (s : String) : RE :=
  s.data.foldr (fun c acc => RE.seq (RE.lit c) acc) RE.eps

/-- Greedy plus as in the source patterns. -/
def plusRE (x : RE) : RE :=
  .seq x (.starG x)

/-- Character class \s of the patterns. -/
def wsRE : RE := .cls pyIsWs

/-- Character class \d of the patterns. -/
def digitRE : RE := .cls pyIsDigit

/-- Character class \w of the patterns. -/
def wordRE : RE := .cls pyIsWord

/-- The dot under re.DOTALL: any character. -/
def dotAllRE : RE := .cls (fun _ => true)

/-- The dot without re.DOTALL: any character except a newline. -/
def dotRE : RE := .cls (fun c => c ≠ '\n')

/-- Character class [\s.\xa0] of build_flexible_item_pattern (the no-break
space is already part of \s for Python str patterns). -/
def itemSepRE : RE := .cls (fun c => pyIsWs c || c = '.')

/-- Character class [\.:,] of build_flexible_item_pattern. -/
def itemPunctRE : RE := .cls (fun c => c = '.' || c = ':' || c = ',')

/-- Decimal digits of a natural number, most significant first. -/
def natToCharsAux : Nat → Nat → List Char
  | 0, _ => []
  | f+1, n =>
    if n < 10 then [Char.ofNat (48 + n)]
    else natToCharsAux f (n / 10) ++ [Char.ofNat (48 + n % 10)]

/-- Decimal rendering of a natural number, as Python string interpolation does. -/
def natToChars (n : Nat) : List Char :=
  natToCharsAux (n + 1) n

/-- Lookahead alternative of build_flexible_item_pattern: the next generic item
header, tolerant of punctuation, as written in src/analyzer.py line 79. -/
def nextItemHeaderRE : RE :=
  seqs [strRE "item", .starG itemSepRE, plusRE digitRE, .starG itemSepRE,
        .optG itemPunctRE, .starG wsRE, plusRE digitRE]

/-- The pattern of build_flexible_item_pattern(major, minor): the item header
tolerant of separators and punctuation, then a lazy dot-all capture up to the
next item header, a signature marker, or the end of the document. -/
def itemRE (major minor : Nat) : RE :=
  seqs [strRE "item", .starG itemSepRE, strRE ⟨natToChars major⟩, .starG itemSepRE,
        .optG itemPunctRE, .starG wsRE, strRE ⟨natToChars minor⟩,
        .starL dotAllRE,
        .look (alts [nextItemHeaderRE, strRE "signature", .eos])]

/-- Character class [\d,] of the financial patterns. -/
def digitCommaRE : RE := .cls (fun c => pyIsDigit c || c = ',')

/-- Optional cents group (?:\.\d{2})? of the financial patterns. -/
def centsRE : RE := .optG (seqs [.lit '.', digitRE, digitRE])

/-- Magnitude words (?:million|billion|trillion|백만|억|조). -/
def magnitudeRE : RE :=
  alts [strRE "million", strRE "billion", strRE "trillion",
        strRE "백만", strRE "억", strRE "조"]

/-- First financial pattern of extract_financial_numbers: a dollar amount with
optional cents and optional magnitude word. -/
def finDollarRE : RE :=
  seqs [.lit '$', plusRE digitCommaRE, centsRE,
        .optG (.seq (.starG wsRE) magnitudeRE)]

/-- Second financial pattern: number, magnitude word, then a currency word. -/
def finMagnitudeRE : RE :=
  seqs [plusRE digitCommaRE, centsRE, .starG wsRE, magnitudeRE, .starG wsRE,
        .alt (strRE "달러") (.seq (strRE "dollar") (.optG (.lit 's')))]

/-- Third financial pattern: a share count. -/
def finSharesRE : RE :=
  seqs [plusRE digitCommaRE, centsRE, .starG wsRE,
        alts [.seq (strRE "share") (.optG (.lit 's')), strRE "주식", strRE "주"]]

/-- Fourth financial pattern: a percentage. -/
def finPercentRE : RE :=
  seqs [plusRE digitCommaRE, centsRE, .starG wsRE, .alt (strRE "percent") (.lit '%')]

/-- The four patterns of extract_financial_numbers, in source order. -/
def financialPatterns : List RE :=
  [finDollarRE, finMagnitudeRE, finSharesRE, finPercentRE]

/-- The extract_financial_numbers function of src/analyzer.py: concatenate the
findall results of the four patterns, then deduplicate via list(set(...)).
The hash-dependent iteration order of the Python set is the parameter
setOrder, a run-dependent function that deduplicates its input. -/
def extract_financial_numbers (setOrder : List String → List String) (text : String) :
    List String :=
  setOrder ((financialPatterns.map (fun p => findAll p text.data)).flatten)

/-- Characterisation of an admissible model of list(set(...)): the output has
no duplicates and holds exactly the members of the input. -/
def IsSetOrder (f : List String → List String) : Prop :=
  ∀ l, (f l).Nodup ∧ ∀ x, x ∈ f l ↔ x ∈ l

/-- Splitting step for re.split of [.!?]+ runs: walk the characters keeping the
current segment; a delimiter closes the segment unless the previous character
was already a delimiter. -/
def splitTermGo (cur : List Char) (prevD : Bool) : List Char → List (List Char)
  | [] => [cur.reverse]
  | c :: t =>
    if c = '.' || c = '!' || c = '?' then
      if prevD then splitTermGo cur true t
      else cur.reverse :: splitTermGo [] true t
    else splitTermGo (c :: cur) false t

/-- Python re.split of the sentence pattern [.!?]+ over the text. -/
def splitTermChars (cs : List Char) : List (List Char) :=
  splitTermGo [] false cs

/-- Stable insertion into a list kept in descending key order; the new element
goes after all elements with a key at least as large. -/
def insertByKeyDesc (key : α → Nat) (x : α) : List α → List α
  | [] => [x]
  | y :: ys => if key y < key x then x :: y :: ys else y :: insertByKeyDesc key x ys

/-- Stable sort by descending key, the semantics of Python sorted and
list.sort with reverse=True. -/
def sortByKeyDesc (key : α → Nat) (l : List α) : List α :=
  l.foldl (fun acc x => insertByKeyDesc key x acc) []

/-- Python str.join with a separator. -/
def joinSep (sep : String) : List String → String
  | [] => ""
  | x :: xs => xs.foldl (fun acc y => acc ++ sep ++ y) x

/-- The item_patterns table of Smart8KExtractor, in dict insertion order:
major, minor, importance, korean_name (the per-item keywords of the source
dict are never read by the extraction code and are omitted). -/
def itemPatternsTable : List (Nat × Nat × Nat × String) :=
  [(1, 1, 8, "중요 계약 체결"),
   (1, 2, 7, "계약 종료"),
   (2, 1, 9, "자산 인수/매각"),
   (2, 2, 8, "실적 발표"),
   (3, 2, 6, "주식 매각"),
   (4, 1, 6, "감사인 변경"),
   (5, 2, 9, "임원 변경"),
   (7, 1, 7, "규제 절차"),
   (8, 1, 5, "기타 중요 사건"),
   (9, 1, 4, "재무제표 및 전시물")]

/-- The item-block stage of extract_important_content: the first match of
each item pattern in importance order, kept when its stripped content exceeds
80 characters, clipped to 1500 characters and labelled. -/
def itemBlocks (text : String) : List String :=
  (sortByKeyDesc (fun ip => ip.2.2.1) itemPatternsTable).filterMap
    (fun ip =>
      match findAll (itemRE ip.1 ip.2.1) text.data with
      | [] => none
      | m :: _ =>
        let block := stripStr m
        if 80 < block.length then
          some ("[" ++ ip.2.2.2 ++ "]\n" ++ (⟨block.data.take 1500⟩ : String))
        else none)

/-- The weighted_sentences list of extract_important_content: stripped
sentence units of at least 40 characters whose keyword weight reaches the
threshold, paired with their weight. -/
def scoredSentences (text : String) : List (String × Nat) :=
  (splitTermChars text.data).filterMap
    (fun cs =>
      if (stripStr ⟨cs⟩).length < 40 then none
      else if 15 ≤ sentWeight (stripStr ⟨cs⟩) then
        some (stripStr ⟨cs⟩, sentWeight (stripStr ⟨cs⟩))
      else none)

/-- The top twelve scored sentences by descending weight. -/
def topSentences (text : String) : List String :=
  ((sortByKeyDesc (fun p => p.2) (scoredSentences text)).take 12).map (fun p => p.1)

/-- The aggregated financial-figures line, absent when no figure was found. -/
def figuresLine (setOrder : List String → List String) (text : String) : List String :=
  let fins := extract_financial_numbers setOrder text
  if fins.isEmpty then ([] : List String)
  else ["주요 수치: " ++ joinSep ", " (fins.take 10)]

/-- The important_parts list built by extract_important_content before the
final take and join: item blocks, then the top scored sentences, then the
figures line. -/
def importantParts (setOrder : List String → List String) (text : String) : List String :=
  itemBlocks text ++ topSentences text ++ figuresLine setOrder text

/-- The combined variable of extract_important_content: at most 15 blocks
joined with blank lines. -/
def combinedDistillate (setOrder : List String → List String) (text : String) : String :=
  joinSep "\n\n" ((importantParts setOrder text).take 15)

/-- The extract_important_content function of src/analyzer.py: join at most 15
blocks with blank lines; if the estimated token count (the external tiktoken
encoder, parameter encLen) exceeds 4500, clip the joined string to 12000
characters. -/
def extractImportantContent (setOrder : List String → List String)
    (encLen : String → Nat) (text : String) : String :=
  if 4500 < encLen (combinedDistillate setOrder text) then
    (⟨(combinedDistillate setOrder text).data.take 12000⟩ : String)
  else combinedDistillate setOrder text

/-- Amended C2: the distillate never holds more than 15 blocks, and whenever
the estimated token count of the joined blocks exceeds the soft ceiling of
4500 the output is clipped to at most 12000 characters. The claim's
unconditional character ceiling does not hold (see the counterexample): when
the token estimate stays at or below 4500 no truncation happens and the output
may exceed 12000 characters. -/
theorem c2_amended (setOrder : List String → List String) (encLen : String → Nat)
    (text : String) :
    ((importantParts setOrder text).take 15).length ≤ 15 ∧
    (4500 < encLen (combinedDistillate setOrder text) →
      (extractImportantContent setOrder encLen text).length ≤ 12000) := by
  constructor
  · rw [List.length_take]
    exact min_le_left _ _
  · intro h
    unfold extractImportantContent
    rw [if_pos h]
    show ((combinedDistillate setOrder text).data.take 12000).length ≤ 12000
    rw [List.length_take]
    exact min_le_left _ _

/-- Witness for c2_amended at a concrete instantiation: the empty document with
a token estimator that always reports 5000 tokens, so the truncation branch is
exercised. -/
theorem c2_witness :
    ((importantParts (fun l => l.dedup) "").take 15).length ≤ 15 ∧
    (extractImportantContent (fun l => l.dedup) (fun _ => 5000) "").length ≤ 12000 :=
  ⟨(c2_amended (fun l => l.dedup) (fun _ => 5000) "").1,
   (c2_amended (fun l => l.dedup) (fun _ => 5000) "").2 (by decide)⟩

/-- Text used for C6: it contains two distinct financial figures, so the
deduplicated figure list has two elements whose order depends on the set
iteration order. -/
def c6Text : String := "We paid $1,000 and got $2,000 in cash"

/-- Claim C6 is right and the code is wrong: extract_financial_numbers returns
list(set(numbers)), whose iteration order depends on the run-specific string
hash seed. Two admissible set orders (both deduplicating, differing only in
order) yield different figure lists and different distillates, so the pipeline
is not byte-identical across runs. -/
theorem c6_evaluation :
    IsSetOrder (fun l => l.dedup) ∧
    IsSetOrder (fun l => l.reverse.dedup) ∧
    extract_financial_numbers (fun l => l.dedup) c6Text ≠
      extract_financial_numbers (fun l => l.reverse.dedup) c6Text ∧
    extractImportantContent (fun l => l.dedup) (fun s => s.length / 4) c6Text ≠
      extractImportantContent (fun l => l.reverse.dedup) (fun s => s.length / 4) c6Text := by
  refine ⟨fun l => ⟨List.nodup_dedup l, fun x => List.mem_dedup⟩,
          fun l => ⟨List.nodup_dedup l.reverse, fun x => List.mem_dedup.trans (List.mem_reverse)⟩,
          ?_, ?_⟩ <;> decide

/-- Text used for C7: a document with a zero-padded Item 5.02 header followed
by an Item 9.01 header, the layout of real 8-K filings. -/
def c7Text : String :=
  "Item 5.02 Departure of Directors was reported. Item 9.01 Financial Statements and Exhibits."

/-- Claim C7 is right and the code is wrong: the built pattern interpolates the
minor number as the bare digit 2, and nothing in the pattern can consume the
zero of 02, so findall finds no Item 5.02 block at all on a document that
plainly contains the header (first two conjuncts); the segmenter consequently
extracts nothing, rather than a block stopping before Item 9.01. -/
theorem c7_evaluation :
    isSubstr "item 5.02" (lowerStr c7Text) = true ∧
    isSubstr "item 9.01" (lowerStr c7Text) = true ∧
    findAll (itemRE 5 2) c7Text.data = [] ∧
    importantParts (fun l => l.dedup) c7Text = [] := by
  decide

/-- List-of-results parser: all parses of a prefix of the input, in the
preference order of the compiled strptime pattern, so the head of the list is
the parse the Python regex engine commits to. -/
abbrev DP (α : Type) := List Char → List (α × List Char)

/-- Parser returning a value without consuming input. -/
def dpPure (a : α) : DP α := fun s => [(a, s)]

/-- Sequencing of list-of-results parsers, depth first and left to right,
which is exactly the regex backtracking order. -/
def dpBind (p : DP α) (f : α → DP β) : DP β :=
  fun s => ((p s).map (fun r => f r.1 r.2)).flatten

/-- One literal character of the format, case-insensitively (strptime compiles
its pattern with IGNORECASE). -/
def dpLit (c : Char) : DP Unit := fun s =>
  match s with
  | a :: t => if a.toLower = c.toLower then [((), t)] else []
  | [] => []

/-- Whitespace of the format: strptime replaces each whitespace run of the
format by the pattern of one or more whitespace characters; longer runs are
preferred, as for a greedy plus. -/
def dpWs1 : DP Unit := fun s =>
  let run := (s.takeWhile pyIsWs).length
  (List.range run).map (fun i => ((), s.drop (run - i)))

/-- The %Y directive: exactly four digits. -/
def dpYear4 : DP Nat := fun s =>
  match s with
  | a :: b :: c :: d :: t =>
    if pyIsDigit a && pyIsDigit b && pyIsDigit c && pyIsDigit d then
      [((a.toNat - 48) * 1000 + (b.toNat - 48) * 100 + (c.toNat - 48) * 10 + (d.toNat - 48), t)]
    else []
  | _ => []

/-- The %d directive, with the alternatives of its compiled pattern
3[01]|[12]\d|0[1-9]|[1-9] in source order. -/
def dpDay : DP Nat := fun s =>
  (match s with
   | a :: b :: t =>
     (if a = '3' && (b = '0' || b = '1') then [(30 + (b.toNat - 48), t)] else []) ++
     (if (a = '1' || a = '2') && pyIsDigit b then [((a.toNat - 48) * 10 + (b.toNat - 48), t)] else []) ++
     (if a = '0' && ('1' ≤ b && b ≤ '9') then [(b.toNat - 48, t)] else [])
   | _ => []) ++
  (match s with
   | a :: t => if '1' ≤ a && a ≤ '9' then [(a.toNat - 48, t)] else []
   | _ => [])

/-- The %m directive, with the alternatives of its compiled pattern
1[0-2]|0[1-9]|[1-9] in source order. -/
def dpMonthNum : DP Nat := fun s =>
  (match s with
   | a :: b :: t =>
     (if a = '1' && ('0' ≤ b && b ≤ '2') then [(10 + (b.toNat - 48), t)] else []) ++
     (if a = '0' && ('1' ≤ b && b ≤ '9') then [(b.toNat - 48, t)] else [])
   | _ => []) ++
  (match s with
   | a :: t => if '1' ≤ a && a ≤ '9' then [(a.toNat - 48, t)] else []
   | _ => [])

/-- Case-insensitive starts-with used for month names. -/
def startsWithCI : List Char → List Char → Bool
  | [], _ => true
  | _ :: _, [] => false
  | a :: as, b :: bs => lowEq a b && startsWithCI as bs

/-- Full English month names for %B, with their numbers. -/
def monthNamesFull : List (String × Nat) :=
  [("january", 1), ("february", 2), ("march", 3), ("april", 4), ("may", 5),
   ("june", 6), ("july", 7), ("august", 8), ("september", 9), ("october", 10),
   ("november", 11), ("december", 12)]

/-- Abbreviated English month names for %b, with their numbers. -/
def monthNamesAbbr : List (String × Nat) :=
  [("jan", 1), ("feb", 2), ("mar", 3), ("apr", 4), ("may", 5), ("jun", 6),
   ("jul", 7), ("aug", 8), ("sep", 9), ("oct", 10), ("nov", 11), ("dec", 12)]

/-- A month-name directive: whichever name of the table starts the input,
matched case-insensitively (no name is a prefix of another in either table, so
at most one alternative fires). -/
def dpMonthName (names : List (String × Nat)) : DP Nat := fun s =>
  names.filterMap (fun nm =>
    if startsWithCI nm.1.data s then some (nm.2, s.drop nm.1.length) else none)

/-- The date formats of EnhancedDateExtractor.date_formats plus the %Y%m%d
format the SEC-header path passes as known_format. -/
inductive Fmt where
  | fullComma
  | abbrComma
  | fullSpace
  | abbrSpace
  | isoDash
  | mdySlash
  | mdyDash
  | dmySlash
  | dmyDash
  | ymd8

/-- Parser of each format, assembled from the directives exactly as strptime
compiles the corresponding format string. -/
def fmtRun : Fmt → DP (Nat × Nat × Nat)
  | .fullComma =>
    dpBind (dpMonthName monthNamesFull) (fun m => dpBind dpWs1 (fun _ =>
      dpBind dpDay (fun d => dpBind (dpLit ',') (fun _ => dpBind dpWs1 (fun _ =>
        dpBind dpYear4 (fun y => dpPure (y, m, d)))))))
  | .abbrComma =>
    dpBind (dpMonthName monthNamesAbbr) (fun m => dpBind dpWs1 (fun _ =>
      dpBind dpDay (fun d => dpBind (dpLit ',') (fun _ => dpBind dpWs1 (fun _ =>
        dpBind dpYear4 (fun y => dpPure (y, m, d)))))))
  | .fullSpace =>
    dpBind (dpMonthName monthNamesFull) (fun m => dpBind dpWs1 (fun _ =>
      dpBind dpDay (fun d => dpBind dpWs1 (fun _ =>
        dpBind dpYear4 (fun y => dpPure (y, m, d))))))
  | .abbrSpace =>
    dpBind (dpMonthName monthNamesAbbr) (fun m => dpBind dpWs1 (fun _ =>
      dpBind dpDay (fun d => dpBind dpWs1 (fun _ =>
        dpBind dpYear4 (fun y => dpPure (y, m, d))))))
  | .isoDash =>
    dpBind dpYear4 (fun y => dpBind (dpLit '-') (fun _ =>
      dpBind dpMonthNum (fun m => dpBind (dpLit '-') (fun _ =>
        dpBind dpDay (fun d => dpPure (y, m, d))))))
  | .mdySlash =>
    dpBind dpMonthNum (fun m => dpBind (dpLit '/') (fun _ =>
      dpBind dpDay (fun d => dpBind (dpLit '/') (fun _ =>
        dpBind dpYear4 (fun y => dpPure (y, m, d))))))
  | .mdyDash =>
    dpBind dpMonthNum (fun m => dpBind (dpLit '-') (fun _ =>
      dpBind dpDay (fun d => dpBind (dpLit '-') (fun _ =>
        dpBind dpYear4 (fun y => dpPure (y, m, d))))))
  | .dmySlash =>
    dpBind dpDay (fun d => dpBind (dpLit '/') (fun _ =>
      dpBind dpMonthNum (fun m => dpBind (dpLit '/') (fun _ =>
        dpBind dpYear4 (fun y => dpPure (y, m, d))))))
  | .dmyDash =>
    dpBind dpDay (fun d => dpBind (dpLit '-') (fun _ =>
      dpBind dpMonthNum (fun m => dpBind (dpLit '-') (fun _ =>
        dpBind dpYear4 (fun y => dpPure (y, m, d))))))
  | .ymd8 =>
    dpBind dpYear4 (fun y => dpBind dpMonthNum (fun m =>
      dpBind dpDay (fun d => dpPure (y, m, d))))

/-- Gregorian month lengths, as the datetime constructor checks them. -/
def daysInMonth (y m : Nat) : Nat :=
  if m = 2 then (if (y % 4 = 0 && y % 100 ≠ 0) || y % 400 = 0 then 29 else 28)
  else if m = 4 || m = 6 || m = 9 || m = 11 then 30 else 31

/-- A parsed calendar date. -/
structure PDate where
  y : Nat
  m : Nat
  d : Nat
  deriving DecidableEq

/-- Python datetime.strptime: the regex engine commits to the first match in
preference order; it must cover the whole string (otherwise unconverted data
remains) and survive the datetime constructor's range checks. -/
def strptime (fmt : Fmt) (s : List Char) : Option PDate :=
  match fmtRun fmt s with
  | [] => none
  | r :: _ =>
    if r.2.isEmpty then
      if 1 ≤ r.1.1 && r.1.1 ≤ 9999 && 1 ≤ r.1.2.1 && r.1.2.1 ≤ 12 &&
         1 ≤ r.1.2.2 && r.1.2.2 ≤ daysInMonth r.1.1 r.1.2.1 then
        some ⟨r.1.1, r.1.2.1, r.1.2.2⟩
      else none
    else none

/-- Digit character for a value below ten. -/
def digChar (k : Nat) : Char :=
  match k with
  | 0 => '0' | 1 => '1' | 2 => '2' | 3 => '3' | 4 => '4'
  | 5 => '5' | 6 => '6' | 7 => '7' | 8 => '8' | _ => '9'

/-- Zero-padded two-digit rendering (%m, %d of strftime). -/
def pad2 (n : Nat) : List Char :=
  [digChar (n / 10 % 10), digChar (n % 10)]

/-- Zero-padded four-digit rendering (%Y of strftime; datetime years are at
most 9999, and the Python documentation renders them zero padded). -/
def pad4 (n : Nat) : List Char :=
  [digChar (n / 1000 % 10), digChar (n / 100 % 10), digChar (n / 10 % 10), digChar (n % 10)]

/-- Python strftime of the %Y-%m-%d pattern. -/
def strftimeYMD (dt : PDate) : String :=
  ⟨pad4 dt.y ++ '-' :: (pad2 dt.m ++ '-' :: pad2 dt.d)⟩

/-- The nine-format list of EnhancedDateExtractor.date_formats, in order. -/
def date_formats : List Fmt :=
  [.fullComma, .abbrComma, .fullSpace, .abbrSpace, .isoDash,
   .mdySlash, .mdyDash, .dmySlash, .dmyDash]

/-- The format loop of _format_date: first successful parse wins, except that
parses with a year above current_year + 5 or below 1990 are skipped. -/
def tryDateFormats (cy : Nat) : List Fmt → List Char → Option String
  | [], _ => none
  | f :: rest, s =>
    match strptime f s with
    | some dt =>
      if cy + 5 < dt.y then tryDateFormats cy rest s
      else if dt.y < 1990 then tryDateFormats cy rest s
      else some (strftimeYMD dt)
    | none => tryDateFormats cy rest s

/-- Positional split of an eight-character token into YYYY-MM-DD, as the
8-digit branch of _format_date builds it by slicing. -/
def posSplit (s : List Char) : String :=
  ⟨s.take 4 ++ '-' :: ((s.drop 4).take 2 ++ '-' :: (s.drop 6).take 2)⟩

/-- The _format_date method of EnhancedDateExtractor: reject empty input;
strip; try the known format when given; then the unconditional positional
split of all-digit 8-character tokens; then the format list with year-range
checks. The current year of datetime.now() is the parameter cy. -/
def formatDate (cy : Nat) (kf : Option Fmt) (dateStr : String) : Option String :=
  if dateStr.data.isEmpty then none
  else
    (kf.bind (fun f => (strptime f (stripChars dateStr.data)).map strftimeYMD)).orElse
      (fun _ =>
        if (stripChars dateStr.data).length = 8 && (stripChars dateStr.data).all pyIsDigit then
          some (posSplit (stripChars dateStr.data))
        else tryDateFormats cy date_formats (stripChars dateStr.data))

/-- Numeric value of a digit string, most significant first. -/
def digitsVal (cs : List Char) : Nat :=
  cs.foldl (fun acc c => acc * 10 + (c.toNat - 48)) 0

/-- Year field of a canonical YYYY-MM-DD string. -/
def yearOfDateStr (s : String) : Nat :=
  digitsVal (s.data.take 4)

/-- Shape check of the caller's post-validation pattern of analyze_8k line 496:
four digits, dash, two digits, dash, two digits covering the whole string. -/
def matchesYMDChars (cs : List Char) : Bool :=
  match cs with
  | [a, b, c, d, e, f, g, h, i, j] =>
    pyIsDigit a && pyIsDigit b && pyIsDigit c && pyIsDigit d && e = '-' &&
    pyIsDigit f && pyIsDigit g && h = '-' && pyIsDigit i && pyIsDigit j
  | _ => false

/-- Python re.match against the anchored date pattern of analyze_8k: the
dollar anchor also accepts one trailing newline. -/
def matchesYMD (s : String) : Bool :=
  matchesYMDChars s.data ||
  (match s.data.getLast? with
   | some c => if c = '\n' then matchesYMDChars s.data.dropLast else false
   | none => false)
/-- Characters with equal code points are equal. -/
theorem char_toNat_inj (a b : Char) (h : a.toNat = b.toNat) : a = b :=
  Char.eq_of_val_eq (UInt32.eq_of_toBitVec_eq (BitVec.eq_of_toNat_eq h))

/-- Code-point bounds of an ASCII digit character. -/
theorem digit_toNat_bounds (b : Char) (hd : pyIsDigit b = true) :
    48 ≤ b.toNat ∧ b.toNat ≤ 57 := by
  simp only [pyIsDigit, Bool.and_eq_true, decide_eq_true_eq] at hd
  exact ⟨hd.1, hd.2⟩

/-- Code point of the rendered digit character. -/
theorem digChar_toNat (k : Nat) (h : k < 10) : (digChar k).toNat = 48 + k := by
  interval_cases k <;> decide

/-- Rendering the value of a digit character gives the character back. -/
theorem digChar_of_digit (b : Char) (hd : pyIsDigit b = true) :
    digChar (b.toNat - 48) = b := by
  have hb := digit_toNat_bounds b hd
  apply char_toNat_inj
  rw [digChar_toNat _ (by omega)]
  omega

/-- Reading back a four-digit zero-padded rendering gives the value. -/
theorem digitsVal_pad4 (y : Nat) (h : y ≤ 9999) : digitsVal (pad4 y) = y := by
  unfold digitsVal pad4
  simp only [List.foldl]
  rw [digChar_toNat _ (Nat.mod_lt _ (by norm_num)),
      digChar_toNat _ (Nat.mod_lt _ (by norm_num)),
      digChar_toNat _ (Nat.mod_lt _ (by norm_num)),
      digChar_toNat _ (Nat.mod_lt _ (by norm_num))]
  omega

/-- Successful strptime parses satisfy the datetime constructor ranges. -/
theorem strptime_bounds (f : Fmt) (s : List Char) (dt : PDate)
    (h : strptime f s = some dt) :
    1 ≤ dt.y ∧ dt.y ≤ 9999 ∧ 1 ≤ dt.m ∧ dt.m ≤ 12 ∧ 1 ≤ dt.d := by
  unfold strptime at h
  split at h
  · exact absurd h (by simp)
  · split at h
    · split at h
      · next hc =>
        injection h with h
        subst h
        simp only [Bool.and_eq_true, decide_eq_true_eq] at hc
        exact ⟨hc.1.1.1.1.1, hc.1.1.1.1.2, hc.1.1.1.2, hc.1.1.2, hc.1.2⟩
      · exact absurd h (by simp)
    · exact absurd h (by simp)

/-- The year field of a rendered date is the year of the parse. -/
theorem yearOf_strftime (dt : PDate) (h : dt.y ≤ 9999) :
    yearOfDateStr (strftimeYMD dt) = dt.y := by
  unfold yearOfDateStr strftimeYMD
  show digitsVal ((pad4 dt.y ++ '-' :: (pad2 dt.m ++ '-' :: pad2 dt.d)).take 4) = dt.y
  rw [show pad4 dt.y ++ '-' :: (pad2 dt.m ++ '-' :: pad2 dt.d)
      = digChar (dt.y / 1000 % 10) :: digChar (dt.y / 100 % 10) :: digChar (dt.y / 10 % 10) ::
        digChar (dt.y % 10) :: ('-' :: (pad2 dt.m ++ '-' :: pad2 dt.d)) from rfl]
  rw [show ∀ a b c d : Char, ∀ r : List Char, (a :: b :: c :: d :: r).take 4 = [a, b, c, d] from
    fun a b c d r => rfl]
  exact digitsVal_pad4 dt.y h

/-- Any date the format loop of _format_date returns has its year inside
[1990, current_year + 5]: the loop skips every parse outside the window. -/
theorem tryDateFormats_year (cy : Nat) (fmts : List Fmt) (s : List Char) (out : String)
    (h : tryDateFormats cy fmts s = some out) :
    1990 ≤ yearOfDateStr out ∧ yearOfDateStr out ≤ cy + 5 := by
  induction fmts with
  | nil => exact absurd h (by simp [tryDateFormats])
  | cons f rest ih =>
    unfold tryDateFormats at h
    split at h
    · split at h
      · exact ih h
      · split at h
        · exact ih h
        · next hs h1 h2 =>
          injection h with h
          subst h
          have hb := strptime_bounds f s _ hs
          rw [yearOf_strftime _ hb.2.1]
          omega
    · exact ih h

/-- Amended C5: the year-range rejection holds for every candidate that goes
through the date-format list — whenever _format_date (with no known format)
accepts a candidate that is not an all-digit 8-character token, the returned
canonical year lies in [1990, current_year + 5], and rejected parses make the
loop continue rather than abort. The claim's assertion that this also covers
8-digit YYYYMMDD tokens is refuted by the counterexample: those bypass the
range check entirely. -/
theorem c5_amended (cy : Nat) (s out : String)
    (hnot : ¬((stripChars s.data).length = 8 ∧ (stripChars s.data).all pyIsDigit = true))
    (h : formatDate cy none s = some out) :
    1990 ≤ yearOfDateStr out ∧ yearOfDateStr out ≤ cy + 5 := by
  unfold formatDate at h
  split at h
  · exact absurd h (by simp)
  · simp only [Option.none_bind, Option.none_orElse] at h
    split at h
    · next hc =>
      simp only [Bool.and_eq_true, decide_eq_true_eq] at hc
      exact absurd ⟨hc.1, hc.2⟩ hnot
    · exact tryDateFormats_year cy date_formats _ out h

/-- Claim C5 fails on the code for the 8-digit tier: the token 21000101 parses
to year 2100, outside [1990, 2030], yet _format_date returns 2100-01-01 both
through the SEC-header known-format path and through the positional branch;
the same out-of-range year in a textual date is rejected. -/
theorem c5_counterexample :
    formatDate 2025 (some .ymd8) "21000101" = some "2100-01-01" ∧
    formatDate 2025 none "21000101" = some "2100-01-01" ∧
    formatDate 2025 none "January 15, 2100" = none := by
  decide

/-- Witness for c5_amended: a concrete textual candidate accepted with its
year inside the window. -/
theorem c5_witness :
    1990 ≤ yearOfDateStr "2025-01-15" ∧ yearOfDateStr "2025-01-15" ≤ 2030 + 5 :=
  c5_amended 2030 "January 15, 2025" "2025-01-15" (by decide) (by decide)

/-- A character with a digit code point is a digit. -/
theorem pyIsDigit_of_toNat (b : Char) (h1 : 48 ≤ b.toNat) (h2 : b.toNat ≤ 57) :
    pyIsDigit b = true := by
  simp only [pyIsDigit, Bool.and_eq_true, decide_eq_true_eq]
  exact ⟨h1, h2⟩

/-- Digit characters are not whitespace. -/
theorem pyIsWs_of_digit (c : Char) (h : pyIsDigit c = true) : pyIsWs c = false := by
  by_contra hc
  simp only [Bool.not_eq_false, pyIsWs, Bool.or_eq_true, decide_eq_true_eq] at hc
  rcases hc with ((((((rfl | rfl) | rfl) | rfl) | rfl) | rfl) | rfl) <;>
    exact absurd h (by decide)

/-- Dropping while a predicate fails everywhere drops nothing. -/
theorem dropWhile_eq_self_of (p : Char → Bool) (cs : List Char)
    (h : ∀ c ∈ cs, p c = false) : cs.dropWhile p = cs := by
  cases cs with
  | nil => rfl
  | cons a t => simp [List.dropWhile_cons, h a (by simp)]

/-- Stripping a string with no whitespace anywhere is the identity. -/
theorem stripChars_eq_self_of (cs : List Char) (h : ∀ c ∈ cs, pyIsWs c = false) :
    stripChars cs = cs := by
  unfold stripChars
  rw [dropWhile_eq_self_of pyIsWs cs h,
      dropWhile_eq_self_of pyIsWs cs.reverse (fun c hc => h c (List.mem_reverse.mp hc)),
      List.reverse_reverse]

/-- Every parse of the %m directive on two leading characters either consumes
exactly two characters whose text is the zero-padded month, or consumes one. -/
theorem dpMonthNum_mem (a b : Char) (t : List Char) (m : Nat) (rest : List Char)
    (h : (m, rest) ∈ dpMonthNum (a :: b :: t)) :
    (rest = t ∧ pad2 m = [a, b]) ∨ rest = b :: t := by
  unfold dpMonthNum at h
  simp only [List.mem_append] at h
  rcases h with (h | h) | h
  · split at h
    · next hc =>
      simp only [List.mem_singleton, Prod.mk.injEq] at h
      obtain ⟨rfl, rfl⟩ := h
      simp only [Bool.and_eq_true, decide_eq_true_eq] at hc
      obtain ⟨rfl, hb0, hb2⟩ := hc
      left
      refine ⟨rfl, ?_⟩
      have hbd : pyIsDigit b = true := pyIsDigit_of_toNat b hb0 (le_trans hb2 (by decide))
      have hb48 := digit_toNat_bounds b hbd
      unfold pad2
      rw [show (10 + (b.toNat - 48)) / 10 % 10 = 1 by omega,
          show (10 + (b.toNat - 48)) % 10 = b.toNat - 48 by omega,
          digChar_of_digit b hbd]
      rfl
    · exact absurd h (by simp)
  · split at h
    · next hc =>
      simp only [List.mem_singleton, Prod.mk.injEq] at h
      obtain ⟨rfl, rfl⟩ := h
      simp only [Bool.and_eq_true, decide_eq_true_eq] at hc
      obtain ⟨rfl, hb1, hb9⟩ := hc
      left
      refine ⟨rfl, ?_⟩
      have hbd : pyIsDigit b = true := pyIsDigit_of_toNat b (le_trans (by decide) hb1) hb9
      have hb48 := digit_toNat_bounds b hbd
      unfold pad2
      rw [show (b.toNat - 48) / 10 % 10 = 0 by omega,
          show (b.toNat - 48) % 10 = b.toNat - 48 by omega,
          digChar_of_digit b hbd]
      rfl
    · exact absurd h (by simp)
  · split at h
    · simp only [List.mem_singleton, Prod.mk.injEq] at h
      exact Or.inr h.2
    · exact absurd h (by simp)

/-- Every parse of the %d directive on two leading characters either consumes
exactly two characters whose text is the zero-padded day, or consumes one. -/
theorem dpDay_mem (a b : Char) (t : List Char) (d : Nat) (rest : List Char)
    (h : (d, rest) ∈ dpDay (a :: b :: t)) :
    (rest = t ∧ pad2 d = [a, b]) ∨ rest = b :: t := by
  unfold dpDay at h
  simp only [List.mem_append] at h
  rcases h with ((h | h) | h) | h
  · split at h
    · next hc =>
      simp only [List.mem_singleton, Prod.mk.injEq] at h
      obtain ⟨rfl, rfl⟩ := h
      simp only [Bool.and_eq_true, Bool.or_eq_true, decide_eq_true_eq] at hc
      obtain ⟨rfl, hb⟩ := hc
      have hbd : pyIsDigit b = true := by
        rcases hb with rfl | rfl <;> decide
      have hb48 := digit_toNat_bounds b hbd
      left
      refine ⟨rfl, ?_⟩
      unfold pad2
      rw [show (30 + (b.toNat - 48)) / 10 % 10 = 3 by omega,
          show (30 + (b.toNat - 48)) % 10 = b.toNat - 48 by omega,
          digChar_of_digit b hbd]
      rfl
    · exact absurd h (by simp)
  · split at h
    · next hc =>
      simp only [List.mem_singleton, Prod.mk.injEq] at h
      obtain ⟨rfl, rfl⟩ := h
      simp only [Bool.and_eq_true, Bool.or_eq_true, decide_eq_true_eq] at hc
      obtain ⟨ha, hbd⟩ := hc
      have ha49 : a.toNat = 49 ∨ a.toNat = 50 := by
        rcases ha with rfl | rfl
        · left; rfl
        · right; rfl
      have had : pyIsDigit a = true := pyIsDigit_of_toNat a (by omega) (by omega)
      have hb48 := digit_toNat_bounds b hbd
      left
      refine ⟨rfl, ?_⟩
      unfold pad2
      rw [show ((a.toNat - 48) * 10 + (b.toNat - 48)) / 10 % 10 = a.toNat - 48 by omega,
          show ((a.toNat - 48) * 10 + (b.toNat - 48)) % 10 = b.toNat - 48 by omega,
          digChar_of_digit a had, digChar_of_digit b hbd]
    · exact absurd h (by simp)
  · split at h
    · next hc =>
      simp only [List.mem_singleton, Prod.mk.injEq] at h
      obtain ⟨rfl, rfl⟩ := h
      simp only [Bool.and_eq_true, decide_eq_true_eq] at hc
      obtain ⟨rfl, hb1, hb9⟩ := hc
      have hbd : pyIsDigit b = true := pyIsDigit_of_toNat b (le_trans (by decide) hb1) hb9
      have hb48 := digit_toNat_bounds b hbd
      left
      refine ⟨rfl, ?_⟩
      unfold pad2
      rw [show (b.toNat - 48) / 10 % 10 = 0 by omega,
          show (b.toNat - 48) % 10 = b.toNat - 48 by omega,
          digChar_of_digit b hbd]
      rfl
    · exact absurd h (by simp)
  · split at h
    · simp only [List.mem_singleton, Prod.mk.injEq] at h
      exact Or.inr h.2
    · exact absurd h (by simp)

/-- Rendering the four-digit value of four digit characters gives them back. -/
theorem pad4_val4 (c0 c1 c2 c3 : Char)
    (h0 : pyIsDigit c0 = true) (h1 : pyIsDigit c1 = true)
    (h2 : pyIsDigit c2 = true) (h3 : pyIsDigit c3 = true) :
    pad4 ((c0.toNat - 48) * 1000 + (c1.toNat - 48) * 100 + (c2.toNat - 48) * 10 +
      (c3.toNat - 48)) = [c0, c1, c2, c3] := by
  have b0 := digit_toNat_bounds c0 h0
  have b1 := digit_toNat_bounds c1 h1
  have b2 := digit_toNat_bounds c2 h2
  have b3 := digit_toNat_bounds c3 h3
  unfold pad4
  rw [show ((c0.toNat - 48) * 1000 + (c1.toNat - 48) * 100 + (c2.toNat - 48) * 10 +
        (c3.toNat - 48)) / 1000 % 10 = c0.toNat - 48 by omega,
      show ((c0.toNat - 48) * 1000 + (c1.toNat - 48) * 100 + (c2.toNat - 48) * 10 +
        (c3.toNat - 48)) / 100 % 10 = c1.toNat - 48 by omega,
      show ((c0.toNat - 48) * 1000 + (c1.toNat - 48) * 100 + (c2.toNat - 48) * 10 +
        (c3.toNat - 48)) / 10 % 10 = c2.toNat - 48 by omega,
      show ((c0.toNat - 48) * 1000 + (c1.toNat - 48) * 100 + (c2.toNat - 48) * 10 +
        (c3.toNat - 48)) % 10 = c3.toNat - 48 by omega,
      digChar_of_digit c0 h0, digChar_of_digit c1 h1, digChar_of_digit c2 h2,
      digChar_of_digit c3 h3]

/-- When strptime with the %Y%m%d format accepts an all-digit 8-character
token, rendering the parse as %Y-%m-%d reproduces the positional split of the
token. -/
theorem strptime_ymd8_pads (c0 c1 c2 c3 c4 c5 c6 c7 : Char)
    (hd : List.all [c0, c1, c2, c3, c4, c5, c6, c7] pyIsDigit = true)
    (dt : PDate) (h : strptime .ymd8 [c0, c1, c2, c3, c4, c5, c6, c7] = some dt) :
    strftimeYMD dt = posSplit [c0, c1, c2, c3, c4, c5, c6, c7] := by
  simp only [List.all_cons, List.all_nil, Bool.and_eq_true, Bool.and_true] at hd
  obtain ⟨h0, h1, h2, h3, h4, h5, h6, h7⟩ := hd
  unfold strptime at h
  split at h
  · exact absurd h (by simp)
  · next r tail heq =>
    split at h
    · next hempty =>
      split at h
      · next hval =>
        injection h with h
        subst h
        have hmem : r ∈ fmtRun .ymd8 [c0, c1, c2, c3, c4, c5, c6, c7] := by
          rw [heq]; exact List.mem_cons_self r tail
        simp only [fmtRun, dpBind, dpPure, List.mem_flatten, List.mem_map] at hmem
        obtain ⟨l1, ⟨⟨y4, rest4⟩, hy4, hl1⟩, hr1⟩ := hmem
        rw [show dpYear4 [c0, c1, c2, c3, c4, c5, c6, c7]
            = [((c0.toNat - 48) * 1000 + (c1.toNat - 48) * 100 + (c2.toNat - 48) * 10 +
                (c3.toNat - 48), [c4, c5, c6, c7])] by
          unfold dpYear4
          simp [h0, h1, h2, h3]] at hy4
        simp only [List.mem_singleton, Prod.mk.injEq] at hy4
        obtain ⟨rfl, rfl⟩ := hy4
        subst hl1
        simp only [List.mem_flatten, List.mem_map] at hr1
        obtain ⟨l2, ⟨⟨mn, restm⟩, hmn, hl2⟩, hr2⟩ := hr1
        subst hl2
        rcases dpMonthNum_mem c4 c5 [c6, c7] mn restm hmn with ⟨rfl, hpadm⟩ | rfl
        · simp only [List.mem_flatten, List.mem_map] at hr2
          obtain ⟨l3, ⟨⟨dn, restd⟩, hdn, hl3⟩, hr3⟩ := hr2
          subst hl3
          simp only [List.mem_singleton] at hr3
          subst hr3
          rcases dpDay_mem c6 c7 [] dn restd hdn with ⟨rfl, hpadd⟩ | rfl
          · unfold strftimeYMD posSplit
            show String.mk (pad4 _ ++ '-' :: (pad2 _ ++ '-' :: pad2 _)) = _
            rw [hpadm, hpadd, pad4_val4 c0 c1 c2 c3 h0 h1 h2 h3]
            rfl
          · exact absurd hempty (by simp)
        · simp only [List.mem_flatten, List.mem_map] at hr2
          obtain ⟨l3, ⟨⟨dn, restd⟩, hdn, hl3⟩, hr3⟩ := hr2
          subst hl3
          simp only [List.mem_singleton] at hr3
          subst hr3
          rcases dpDay_mem c5 c6 [c7] dn restd hdn with ⟨rfl, _⟩ | rfl
          · exact absurd hempty (by simp)
          · exact absurd hempty (by simp)
      · exact absurd h (by simp)
    · exact absurd h (by simp)

/-- Unfolding the character data of a constructed string. -/
theorem data_mk (l : List Char) : (String.mk l).data = l := rfl

/-- Claim C9 holds: for every all-digit 8-character token, _format_date
returns the unconditional positional split token[0:4]-token[4:6]-token[6:8],
both with no known format and with the %Y%m%d known format of the SEC-header
path, with no month, day, or year validation; and the split always matches the
caller's post-validation pattern. -/
theorem c9_eight_digit_split (cy : Nat) (tok : String)
    (h8 : tok.data.length = 8) (hdig : tok.data.all pyIsDigit = true) :
    formatDate cy none tok = some (posSplit tok.data) ∧
    formatDate cy (some .ymd8) tok = some (posSplit tok.data) ∧
    matchesYMD (posSplit tok.data) = true := by
  obtain ⟨cs⟩ := tok
  have h8s : cs.length = 8 := h8
  have hdigs : cs.all pyIsDigit = true := hdig
  clear h8 hdig
  rcases cs with _ | ⟨c0, _ | ⟨c1, _ | ⟨c2, _ | ⟨c3, _ | ⟨c4, _ | ⟨c5, _ | ⟨c6, _ | ⟨c7, rest⟩⟩⟩⟩⟩⟩⟩⟩ <;>
    simp at h8s
  subst h8s
  simp only [List.all_cons, List.all_nil, Bool.and_eq_true, Bool.and_true] at hdigs
  obtain ⟨h0, h1, h2, h3, h4, h5, h6, h7⟩ := hdigs
  have hstrip : stripChars [c0, c1, c2, c3, c4, c5, c6, c7] = [c0, c1, c2, c3, c4, c5, c6, c7] := by
    apply stripChars_eq_self_of
    intro c hc
    simp only [List.mem_cons, List.not_mem_nil, or_false] at hc
    rcases hc with rfl | rfl | rfl | rfl | rfl | rfl | rfl | rfl
    · exact pyIsWs_of_digit c h0
    · exact pyIsWs_of_digit c h1
    · exact pyIsWs_of_digit c h2
    · exact pyIsWs_of_digit c h3
    · exact pyIsWs_of_digit c h4
    · exact pyIsWs_of_digit c h5
    · exact pyIsWs_of_digit c h6
    · exact pyIsWs_of_digit c h7
  have hcond2 : (([c0, c1, c2, c3, c4, c5, c6, c7] : List Char).length = 8
      && ([c0, c1, c2, c3, c4, c5, c6, c7] : List Char).all pyIsDigit) = true := by
    simp [h0, h1, h2, h3, h4, h5, h6, h7]
  have hps : posSplit [c0, c1, c2, c3, c4, c5, c6, c7]
      = String.mk [c0, c1, c2, c3, '-', c4, c5, '-', c6, c7] := rfl
  refine ⟨?_, ?_, ?_⟩
  · unfold formatDate
    rw [if_neg (by simp)]
    simp only [Option.none_bind, Option.none_orElse, data_mk, hstrip]
    rw [if_pos hcond2]
    rfl
  · unfold formatDate
    rw [if_neg (by simp)]
    simp only [Option.some_bind, data_mk, hstrip]
    cases hsp : strptime Fmt.ymd8 [c0, c1, c2, c3, c4, c5, c6, c7] with
    | some dt =>
      simp only [Option.map_some']
      rw [strptime_ymd8_pads c0 c1 c2 c3 c4 c5 c6 c7
        (by simp [h0, h1, h2, h3, h4, h5, h6, h7]) dt hsp]
      rfl
    | none =>
      simp only [Option.map_none', Option.none_orElse]
      rw [if_pos hcond2]
      rfl
  · rw [hps]
    simp [matchesYMD, matchesYMDChars, h0, h1, h2, h3, h4, h5, h6, h7]

/-- Witness for c9_eight_digit_split: the token 20251399 yields 2025-13-99,
not a real calendar date, and it survives the caller's regex re-check. -/
theorem c9_witness :
    formatDate 2025 (some .ymd8) "20251399" = some "2025-13-99" ∧
    formatDate 2025 none "20251399" = some "2025-13-99" ∧
    matchesYMD "2025-13-99" = true := by
  have h := c9_eight_digit_split 2025 "20251399" (by decide) (by decide)
  have e : posSplit ("20251399" : String).data = "2025-13-99" := by decide
  exact ⟨e ▸ h.2.1, e ▸ h.1, e ▸ h.2.2⟩

/-- First result of applying a fallible function along a list, the shape of
the first-success-returns loops of the extractor. -/
def firstSomeList (f : α → Option β) : List α → Option β
  | [] => none
  | x :: xs =>
    match f x with
    | some r => some r
    | none => firstSomeList f xs

/-- The textual-date capture group \w+\s+\d{1,2},?\s+\d{4} shared by several
date patterns. -/
def textualDateRE : RE :=
  seqs [plusRE wordRE, plusRE wsRE, digitRE, .optG digitRE, .optG (.lit ','),
        plusRE wsRE, digitRE, digitRE, digitRE, digitRE]

/-- The slash-date capture group \d{1,2}/\d{1,2}/\d{4}. -/
def slashDateRE : RE :=
  seqs [digitRE, .optG digitRE, .lit '/', digitRE, .optG digitRE, .lit '/',
        digitRE, digitRE, digitRE, digitRE]

/-- The dash-date capture group \d{1,2}-\d{1,2}-\d{4}. -/
def dashDateRE : RE :=
  seqs [digitRE, .optG digitRE, .lit '-', digitRE, .optG digitRE, .lit '-',
        digitRE, digitRE, digitRE, digitRE]

/-- The ISO capture group \d{4}-\d{2}-\d{2}. -/
def isoDateRE : RE :=
  seqs [digitRE, digitRE, digitRE, digitRE, .lit '-', digitRE, digitRE,
        .lit '-', digitRE, digitRE]

/-- Character class [:\(] of the SEC header label patterns. -/
def labelPunctRE : RE := .cls (fun c => c = ':' || c = '(')

/-- The date_patterns list of EnhancedDateExtractor, in priority order; all are
matched with IGNORECASE, and the dots of the lazy gaps do not cross newlines. -/
def datePatterns : List RE :=
  [seqs [strRE "date", plusRE wsRE, strRE "of", plusRE wsRE, strRE "report",
         .starG wsRE, .optG labelPunctRE, .starG wsRE, .grp textualDateRE],
   seqs [strRE "date", plusRE wsRE, strRE "of", plusRE wsRE, strRE "earliest",
         plusRE wsRE, strRE "event", plusRE wsRE, strRE "reported",
         .starG wsRE, .optG labelPunctRE, .starG wsRE, .grp textualDateRE],
   seqs [strRE "filing", plusRE wsRE, strRE "date",
         .starG wsRE, .optG labelPunctRE, .starG wsRE, .grp textualDateRE],
   .grp isoDateRE,
   .grp slashDateRE,
   .grp dashDateRE,
   seqs [.lit '(', .grp textualDateRE, .lit ')'],
   seqs [.lit '(', .grp slashDateRE, .lit ')'],
   seqs [.lit '(', .grp isoDateRE, .lit ')'],
   seqs [alts [strRE "on", .seq (strRE "date") (.optG (.lit 'd')),
               seqs [strRE "as", plusRE wsRE, strRE "of"], strRE "effective"],
         plusRE wsRE, .grp textualDateRE],
   seqs [alts [strRE "on", .seq (strRE "date") (.optG (.lit 'd')),
               seqs [strRE "as", plusRE wsRE, strRE "of"], strRE "effective"],
         plusRE wsRE, .grp slashDateRE],
   seqs [strRE "current", plusRE wsRE, strRE "report", plusRE wsRE,
         .starL dotRE, .grp textualDateRE],
   seqs [strRE "form", plusRE wsRE, strRE "8-k", plusRE wsRE,
         .starL dotRE, .grp textualDateRE]]

/-- The _extract_with_patterns method: first pattern whose first formattable
match yields a canonical date. -/
def extractWithPatterns (cy : Nat) (text : String) : Option String :=
  firstSomeList
    (fun p => firstSomeList (fun m => formatDate cy none (stripStr m)) (findAll p text.data))
    datePatterns

/-- Character class [:\s] of the SEC header field patterns. -/
def colonWsRE : RE := .cls (fun c => c = ':' || pyIsWs c)

/-- The eight-digit capture group (\d{8}). -/
def digit8RE : RE :=
  seqs [digitRE, digitRE, digitRE, digitRE, digitRE, digitRE, digitRE, digitRE]

/-- The header_patterns list of _extract_from_sec_header, matched with
DOTALL and IGNORECASE over the rendered markup. -/
def headerPatterns : List RE :=
  [seqs [strRE "<SEC-HEADER>", .starL dotAllRE, strRE "</SEC-HEADER>"],
   seqs [strRE "SEC-HEADER", .starL dotAllRE, .look (.alt (.lit '<') .eos)],
   seqs [strRE "CONFORMED", plusRE wsRE, strRE "PERIOD", plusRE wsRE, strRE "OF",
         plusRE wsRE, strRE "REPORT", plusRE colonWsRE, .grp digit8RE],
   seqs [strRE "FILED", plusRE wsRE, strRE "AS", plusRE wsRE, strRE "OF",
         plusRE wsRE, strRE "DATE", plusRE colonWsRE, .grp digit8RE]]

/-- Handling of one header match: an all-digit 8-character match returns
immediately through _format_date with the %Y%m%d known format (the outer some
models that unconditional return); otherwise the inner pattern extraction
returns only when it finds a date. -/
def headerScanMatch (cy : Nat) (m : String) : Option (Option String) :=
  if m.data.length = 8 && m.data.all pyIsDigit then some (formatDate cy (some .ymd8) m)
  else
    match extractWithPatterns cy m with
    | some r => some (some r)
    | none => none

/-- The _extract_from_sec_header method over the rendered markup str(soup). -/
def extractFromSecHeader (cy : Nat) (rendered : String) : Option String :=
  (firstSomeList
    (fun h => firstSomeList (headerScanMatch cy) (findAll h rendered.data))
    headerPatterns).join

/-- A parsed markup tag as the tag scan of the extractor sees it: name,
attributes, and the optional tag.string content. -/
structure STag where
  name : String
  attrs : List (String × String)
  strContent : Option String

/-- The BeautifulSoup parse of a document, as far as the extractor reads it:
the rendered markup str(soup), the plain text soup.get_text(" "), and the tag
list in document order. The parser itself is an external collaborator. -/
structure Soup where
  rendered : String
  text : String
  tags : List STag

/-- The date_tags list of _extract_from_html_tags. -/
def dateTags : List String := ["time", "date", "span", "div", "p"]

/-- The date_attrs list of _extract_from_html_tags. -/
def dateAttrs : List String := ["datetime", "date", "data-date"]

/-- Python tag.get(attr): the first attribute of that name. -/
def tagAttrValue (tag : STag) (attr : String) : Option String :=
  (tag.attrs.find? (fun kv => kv.1 = attr)).map (fun kv => kv.2)

/-- The _extract_from_html_tags method: for each date-bearing tag name in
order, scan the matching tags; inside a tag first the date attributes (kept
only when nonempty, Python truthiness), then the stripped tag.string. -/
def extractFromHtmlTags (cy : Nat) (tags : List STag) : Option String :=
  firstSomeList
    (fun tagName =>
      firstSomeList
        (fun tag =>
          match firstSomeList
              (fun attr =>
                match tagAttrValue tag attr with
                | some v => if v.data.isEmpty then none else formatDate cy none v
                | none => none) dateAttrs with
          | some r => some r
          | none =>
            match tag.strContent with
            | some sv => if sv.data.isEmpty then none else formatDate cy none (stripStr sv)
            | none => none) (tags.filter (fun t => t.name = tagName)))
    dateTags

/-- The extract_date_from_html method: SEC header, then the labeled patterns
over the first 2000 characters of the plain text, then over the whole text,
then the tag scan, then the caller-supplied default. -/
def extract_date_from_html (cy : Nat) (soup : Soup) (defaultDate : String) : String :=
  match extractFromSecHeader cy soup.rendered with
  | some d => d
  | none =>
    match extractWithPatterns cy (⟨soup.text.data.take 2000⟩ : String) with
    | some d => d
    | none =>
      match extractWithPatterns cy soup.text with
      | some d => d
      | none =>
        match extractFromHtmlTags cy soup.tags with
        | some d => d
        | none => defaultDate

/-- The caller-side post-validation of analyze_8k lines 492-498: re-check the
extractor's return value against the anchored date pattern and substitute the
default on mismatch. -/
def validatedFilingDate (cy : Nat) (soup : Soup) (defaultDate : String) : String :=
  let f := extract_date_from_html cy soup defaultDate
  if matchesYMD f then f else defaultDate

/-- A string matching the anchored date pattern is nonempty. -/
theorem matchesYMD_ne_empty (s : String) (h : matchesYMD s = true) : s ≠ "" := by
  intro h0
  subst h0
  exact absurd h (by decide)

/-- Claim C1 fails as stated: with the default date string set to, for example,
None (the very value the source's usage example passes), a document in which
every tier fails makes the extractor return the default; the post-validation
re-check fails and substitutes the same non-matching default, so the final
output does not match the anchored date pattern. -/
theorem c1_counterexample :
    validatedFilingDate 2025 ⟨"", "", []⟩ "None" = "None" ∧
    matchesYMD (validatedFilingDate 2025 ⟨"", "", []⟩ "None") = false := by
  decide

/-- Amended C1: provided the caller-supplied default itself matches the
anchored date pattern, the post-validated filing date is a nonempty string
matching the pattern, for every document. -/
theorem c1_amended (cy : Nat) (soup : Soup) (dd : String) (h : matchesYMD dd = true) :
    validatedFilingDate cy soup dd ≠ "" ∧
    matchesYMD (validatedFilingDate cy soup dd) = true := by
  unfold validatedFilingDate
  by_cases hf : matchesYMD (extract_date_from_html cy soup dd) = true
  · rw [if_pos hf]
    exact ⟨matchesYMD_ne_empty _ hf, hf⟩
  · rw [if_neg hf]
    exact ⟨matchesYMD_ne_empty _ h, h⟩

/-- Witness for c1_amended on the empty document with a well-formed default. -/
theorem c1_witness :
    validatedFilingDate 2025 ⟨"", "", []⟩ "2025-01-01" ≠ "" ∧
    matchesYMD (validatedFilingDate 2025 ⟨"", "", []⟩ "2025-01-01") = true :=
  c1_amended 2025 ⟨"", "", []⟩ "2025-01-01" (by decide)

/-- The gzip magic header bytes 0x1f 0x8b checked by fetch_recent_8k_filings. -/
def gzipMagic : List Nat := [31, 139]

/-- The bytes the loader continues with after the gzip branch of
src/edgar.py lines 66-72: decompression (the external gzip library is the
parameter gz, returning none when it raises) is attempted exactly on inputs
with the magic header, and a failure keeps the original bytes. -/
def bytesAfterGzip (gz : List Nat → Option (List Nat)) (raw : List Nat) : List Nat :=
  if raw.take 2 = gzipMagic then (gz raw).getD raw else raw

/-- The control-character scrub of src/edgar.py line 75: every byte outside
tab, LF, CR and printable ASCII becomes one space. -/
def cleanBytes (bs : List Nat) : List Nat :=
  bs.map (fun b => if b = 9 || b = 10 || b = 13 || (32 ≤ b && b ≤ 126) then b else 32)

/-- The per-file processing of fetch_recent_8k_filings after reading the raw
bytes: gzip branch, scrub, then the external detect-and-decode step. -/
def loadFilingBytes (gz : List Nat → Option (List Nat)) (detectDecode : List Nat → String)
    (raw : List Nat) : String :=
  detectDecode (cleanBytes (bytesAfterGzip gz raw))

/-- Claim C8 holds: on every byte input starting with the gzip magic header,
decompression is attempted; when it succeeds processing continues with the
decompressed bytes, and when it raises, the failure is non-fatal and
processing continues with the original, unmodified bytes. -/
theorem c8_gzip_fallback (gz : List Nat → Option (List Nat))
    (detectDecode : List Nat → String) (raw : List Nat)
    (hm : raw.take 2 = gzipMagic) :
    (∀ d, gz raw = some d → loadFilingBytes gz detectDecode raw = detectDecode (cleanBytes d)) ∧
    (gz raw = none → loadFilingBytes gz detectDecode raw = detectDecode (cleanBytes raw)) := by
  constructor
  · intro d hd
    unfold loadFilingBytes bytesAfterGzip
    rw [if_pos hm, hd]
    rfl
  · intro hn
    unfold loadFilingBytes bytesAfterGzip
    rw [if_pos hm, hn]
    rfl

/-- Witness for c8_gzip_fallback: a corrupt three-byte gzip stream whose
decompression fails is scrubbed and decoded as-is. -/
theorem c8_witness :
    loadFilingBytes (fun _ => none) (fun bs => if bs.length = 3 then "ok" else "bad")
      [31, 139, 255] = "ok" := by
  rw [(c8_gzip_fallback (fun _ => none)
    (fun bs => if bs.length = 3 then "ok" else "bad") [31, 139, 255] (by decide)).2 rfl]
  decide

/-- A JSON object as json.loads returns it to analyze_8k, restricted to the
three keys the downstream simplification reads (the metadata keys the source
adds with record.update are dropped again by simplify_8k_results and are not
modelled). -/
structure JsonRecord where
  title : Option String
  narrative : Option String
  filing_date : Option String
  deriving DecidableEq

/-- The simplified record shape returned by analyze_8k. -/
structure SimpleRecord where
  title : String
  narrative : String
  filing_date : String
  deriving DecidableEq

/-- The parts of a BeautifulSoup parse that smart_filter reads: the soup for
date extraction, the plain text after decomposing header/footer/nav/script/
style tags, the table texts, and the emphasized texts (external parsing is a
parameter; the keyword and length filters below are the embedded code). -/
structure ParsedDoc where
  soup : Soup
  fullText : String
  tableTexts : List String
  emphTexts : List String

/-- The table keyword filter of smart_filter. -/
def tableKeywords : List String :=
  ["merger", "agreement", "officer", "director", "shares", "vote",
   "financial", "revenue", "earnings", "dividend", "debt"]

/-- Table selection of smart_filter: keep tables mentioning a keyword, at
most three. -/
def smartFilterTables (tables : List String) : List String :=
  (tables.filter (fun txt => tableKeywords.any (fun kw => isSubstr kw (lowerStr txt)))).take 3

/-- Emphasized-text selection of smart_filter: keep texts longer than ten
characters, at most fifteen. -/
def smartFilterEmphasized (emphs : List String) : List String :=
  (emphs.filter (fun txt => 10 < txt.length)).take 15

/-- The external collaborators of analyze_8k: the current year, the tiktoken
encoder, the BeautifulSoup parse, the LLM call (none models failure after all
retries), the JSON parser, and the set iteration order. -/
structure AnalyzeEnv where
  cy : Nat
  encLen : String → Nat
  parse : String → ParsedDoc
  llm : Nat → String → String → Option String
  parseJson : String → Option JsonRecord
  setOrder : List String → List String

/-- The document loop of analyze_8k, with money in exact nanodollars: the cost
estimate 0.4 tokens-per-character times 0.00075 dollars per thousand tokens is
300 nanodollars per estimated token; the real cost is 150 nanodollars per
input token and 600 per output token; the budget check, skip, date
validation, content assembly with table and emphasized supplements, LLM call,
JSON parse, response-date repair, and the budget break mirror lines 481-581. -/
def analyzeLoop (env : AnalyzeEnv) (maxCost : Nat) (dd : String) :
    List String → Nat → Nat → List JsonRecord → List JsonRecord
  | [], _, _, acc => acc
  | raw :: rest, idx, total, acc =>
    let est := env.encLen (⟨raw.data.take 15000⟩ : String) * 300
    if maxCost < total + est then analyzeLoop env maxCost dd rest (idx + 1) total acc
    else
      let filtered := env.parse raw
      let filingDate := validatedFilingDate env.cy filtered.soup dd
      let tbls := smartFilterTables filtered.tableTexts
      let emphs := smartFilterEmphasized filtered.emphTexts
      let content0 := extractImportantContent env.setOrder env.encLen filtered.fullText
      let content1 :=
        if tbls.isEmpty then content0
        else content0 ++ "\n\n[테이블 정보]\n" ++ (⟨(joinSep "\n" tbls).data.take 1500⟩ : String)
      let content :=
        if emphs.isEmpty then content1
        else content1 ++ "\n\n[강조된 내용]\n" ++ joinSep "\n" (emphs.take 10)
      match env.llm idx filingDate content with
      | none => analyzeLoop env maxCost dd rest (idx + 1) total acc
      | some resp =>
        match env.parseJson resp with
        | none => analyzeLoop env maxCost dd rest (idx + 1) total acc
        | some rec =>
          let recordDate := rec.filing_date.getD filingDate
          let rec2 :=
            if matchesYMD recordDate then rec
            else { rec with filing_date := some filingDate }
          let total2 := total + (env.encLen content * 150 + env.encLen resp * 600)
          let acc2 := acc ++ [rec2]
          if maxCost ≤ total2 then acc2
          else analyzeLoop env maxCost dd rest (idx + 1) total2 acc2

/-- The simplify_8k_results function: keep title, narrative and filing date,
with the source's fallback strings for missing keys. -/
def simplify_8k_results (results : List JsonRecord) : List SimpleRecord :=
  results.map (fun r =>
    { title := r.title.getD "제목 없음",
      narrative := r.narrative.getD "내용 없음",
      filing_date := r.filing_date.getD "날짜 정보 없음" })

/-- The fallback record of analyze_8k lines 586-591, carrying the default
filing date. -/
def fallbackRecord (dd : String) : SimpleRecord :=
  { title := "분석 가능한 중요 공시 내용 없음",
    narrative := "제공된 문서에서 투자자나 비즈니스 관점에서 중요한 정보를 찾을 수 없었습니다. 문서 형식이나 내용에 문제가 있거나, 중요도가 낮은 기술적 공시일 가능성이 있습니다.",
    filing_date := dd }

/-- The analyze_8k function: the empty-document guard comes first, before the
default date is even resolved; the fallback record is produced only when the
loop yields no results. -/
def analyze_8k (env : AnalyzeEnv) (today : String) (docs : List String)
    (maxCost : Nat) (dd : Option String) : List SimpleRecord :=
  if docs.isEmpty then []
  else
    let ddR := dd.getD today
    let results := analyzeLoop env maxCost ddR docs 0 0 []
    if results.isEmpty then [fallbackRecord ddR]
    else simplify_8k_results results

/-- Claim C10 holds: analyze_8k with an empty document list returns the empty
list immediately (the guard runs before anything else and nothing is raised),
and the fallback record carrying the default filing date appears exactly when
the document list is nonempty but the per-document loop yields no results. -/
theorem c10_empty_guard (env : AnalyzeEnv) (today : String) (maxCost : Nat)
    (dd : Option String) :
    analyze_8k env today [] maxCost dd = [] ∧
    (∀ docs : List String, docs ≠ [] →
      (analyzeLoop env maxCost (dd.getD today) docs 0 0 [] = [] →
        analyze_8k env today docs maxCost dd = [fallbackRecord (dd.getD today)]) ∧
      (analyzeLoop env maxCost (dd.getD today) docs 0 0 [] ≠ [] →
        analyze_8k env today docs maxCost dd =
          simplify_8k_results (analyzeLoop env maxCost (dd.getD today) docs 0 0 []))) := by
  constructor
  · rfl
  · intro docs hne
    constructor
    · intro hloop
      unfold analyze_8k
      rw [if_neg (by simpa using hne)]
      show (if (analyzeLoop env maxCost (dd.getD today) docs 0 0 []).isEmpty = true
          then [fallbackRecord (dd.getD today)]
          else simplify_8k_results (analyzeLoop env maxCost (dd.getD today) docs 0 0 [])) = _
      rw [hloop]
      rfl
    · intro hloop
      unfold analyze_8k
      rw [if_neg (by simpa using hne)]
      show (if (analyzeLoop env maxCost (dd.getD today) docs 0 0 []).isEmpty = true
          then [fallbackRecord (dd.getD today)]
          else simplify_8k_results (analyzeLoop env maxCost (dd.getD today) docs 0 0 [])) = _
      rw [if_neg (by simp only [List.isEmpty_iff]; exact hloop)]

/-- Witness for c10_empty_guard: a concrete environment whose LLM call always
fails; the empty list maps to the empty list, and one unanalyzable document
produces exactly the fallback record with the default date. -/
theorem c10_witness :
    analyze_8k
      ⟨2025, fun _ => 0, fun _ => ⟨⟨"", "", []⟩, "", [], []⟩, fun _ _ _ => none,
       fun _ => none, fun l => l.dedup⟩
      "2025-01-01" [] 8000000000 none = [] ∧
    analyze_8k
      ⟨2025, fun _ => 0, fun _ => ⟨⟨"", "", []⟩, "", [], []⟩, fun _ _ _ => none,
       fun _ => none, fun l => l.dedup⟩
      "2025-01-01" ["x"] 8000000000 none = [fallbackRecord "2025-01-01"] :=
  ⟨(c10_empty_guard _ "2025-01-01" 8000000000 none).1,
   ((c10_empty_guard
      ⟨2025, fun _ => 0, fun _ => ⟨⟨"", "", []⟩, "", [], []⟩, fun _ _ _ => none,
       fun _ => none, fun l => l.dedup⟩
      "2025-01-01" 8000000000 none).2 ["x"] (by decide)).1 (by decide)⟩

/-- A predicate every first character of a match of the pattern must satisfy,
when the pattern's structure forces one (a literal, class, sequence or group
head). -/
def headMustSat : RE → Option (Char → Bool)
  | .lit c => some (fun a => lowEq a c)
  | .cls p => some p
  | .seq x _ => headMustSat x
  | .grp x => headMustSat x
  | _ => none

/-- The matcher fails on any input whose head violates the forced head
predicate, for every continuation and fuel. -/
theorem mrun_none_of_headMustSat (re : RE) (p : Char → Bool) (hp : headMustSat re = some p) :
    ∀ (f : Nat) (s : List Char) (cap : Option (List Char))
      (k : List Char → Option (List Char) → MRes),
      (match s with | [] => True | a :: _ => p a = false) → mrun f re s cap k = none := by
  induction re with
  | lit c =>
    intro f s cap k hs
    have hpt : p = fun a => lowEq a c := by
      injection hp with h2
      exact h2.symm
    subst hpt
    cases f with
    | zero => rfl
    | succ f =>
      cases s with
      | nil => rfl
      | cons a t =>
        show (if lowEq a c then k t cap else none) = none
        exact if_neg (by simp [show lowEq a c = false from hs])
  | cls q =>
    intro f s cap k hs
    have hpt : p = q := by
      injection hp with h2
      exact h2.symm
    subst hpt
    cases f with
    | zero => rfl
    | succ f =>
      cases s with
      | nil => rfl
      | cons a t =>
        show (if p a then k t cap else none) = none
        exact if_neg (by simp [show p a = false from hs])
  | seq x y ihx ihy =>
    intro f s cap k hs
    cases f with
    | zero => rfl
    | succ f => exact ihx hp f s cap _ hs
  | grp x ihx =>
    intro f s cap k hs
    cases f with
    | zero => rfl
    | succ f => exact ihx hp f s cap _ hs
  | eps => exact absurd hp (by simp [headMustSat])
  | alt x y ihx ihy => exact absurd hp (by simp [headMustSat])
  | starG x ihx => exact absurd hp (by simp [headMustSat])
  | starL x ihx => exact absurd hp (by simp [headMustSat])
  | optG x ihx => exact absurd hp (by simp [headMustSat])
  | look x ihx => exact absurd hp (by simp [headMustSat])
  | eos => exact absurd hp (by simp [headMustSat])

/-- findAll's worker finds nothing in a string none of whose characters
satisfies the forced head predicate. -/
theorem findAllAux_nil_of (re : RE) (p : Char → Bool) (hp : headMustSat re = some p)
    (n : Nat) (s : List Char) (hs : ∀ a ∈ s, p a = false) : findAllAux re n s = [] := by
  induction n generalizing s with
  | zero => rfl
  | succ n ih =>
    have hnone : runRE re s = none :=
      mrun_none_of_headMustSat re p hp _ s none _ (by
        cases s with
        | nil => trivial
        | cons a t => exact hs a (by simp))
    unfold findAllAux
    rw [hnone]
    cases s with
    | nil => rfl
    | cons a t => exact ih t (fun c hc => hs c (by simp [hc]))

/-- findAll returns no matches on a string none of whose characters satisfies
the pattern's forced head predicate. -/
theorem findAll_nil_of (re : RE) (p : Char → Bool) (hp : headMustSat re = some p)
    (s : List Char) (hs : ∀ a ∈ s, p a = false) : findAll re s = [] := by
  unfold findAll
  rw [findAllAux_nil_of re p hp _ s hs]
  rfl

/-- Filler for the C2 counterexample document. -/
def c2Tail : List Char := List.replicate 12993 'z'

/-- The character list of the C2 counterexample document: the keyword merger,
a space, and 12994 letters z - a single 13001-character sentence with no
sentence terminator, no whitespace at the ends, no item header and no
financial figure. -/
def c2Chars : List Char := 'm' :: (('e' :: 'r' :: 'g' :: 'e' :: 'r' :: ' ' :: c2Tail) ++ ['z'])

/-- The C2 counterexample document as a string. -/
def c2Text : String := ⟨c2Chars⟩

/-- Every character of the counterexample document is one of m, e, r, g,
space, z. -/
theorem c2Chars_all (pred : Char → Bool) (hm : pred 'm' = false) (he : pred 'e' = false)
    (hr : pred 'r' = false) (hg : pred 'g' = false) (hsp : pred ' ' = false)
    (hz : pred 'z' = false) : ∀ a ∈ c2Chars, pred a = false := by
  intro a ha
  unfold c2Chars c2Tail at ha
  simp only [List.mem_cons, List.mem_append, List.mem_replicate, List.mem_singleton] at ha
  rcases ha with rfl | (rfl | rfl | rfl | rfl | rfl | rfl | ⟨-, rfl⟩) | (rfl | hn)
  · exact hm
  · exact he
  · exact hr
  · exact hg
  · exact he
  · exact hr
  · exact hsp
  · exact hz
  · exact hz
  · exact absurd hn (by simp)

/-- Splitting on sentence terminators leaves a terminator-free text as one
piece. -/
theorem splitTermGo_no_delim (cs : List Char) :
    (∀ c ∈ cs, (c = '.' || c = '!' || c = '?') = false) →
    ∀ cur : List Char, splitTermGo cur false cs = [cur.reverse ++ cs] := by
  induction cs with
  | nil => intro h cur; simp [splitTermGo]
  | cons c t ih =>
    intro h cur
    unfold splitTermGo
    rw [if_neg (by simp [h c (by simp)])]
    rw [ih (fun x hx => h x (by simp [hx])) (c :: cur)]
    simp

/-- Stripping leaves a list alone when both end characters are
non-whitespace. -/
theorem stripChars_ends (a b : Char) (mid : List Char)
    (ha : pyIsWs a = false) (hb : pyIsWs b = false) :
    stripChars (a :: (mid ++ [b])) = a :: (mid ++ [b]) := by
  unfold stripChars
  rw [show (a :: (mid ++ [b])).dropWhile pyIsWs = a :: (mid ++ [b]) by
    simp [List.dropWhile_cons, ha]]
  rw [show (a :: (mid ++ [b])).reverse = b :: (mid.reverse ++ [a]) by simp]
  rw [show (b :: (mid.reverse ++ [a])).dropWhile pyIsWs = b :: (mid.reverse ++ [a]) by
    simp [List.dropWhile_cons, hb]]
  simp

/-- The counterexample document is already stripped. -/
theorem stripChars_c2 : stripChars c2Chars = c2Chars := by
  unfold c2Chars
  exact stripChars_ends 'm' 'z' _ (by decide) (by decide)

/-- The counterexample document is already lowercase. -/
theorem lowerStr_c2 : lowerStr c2Text = c2Text := by
  unfold lowerStr c2Text c2Chars c2Tail
  simp only [List.map_cons, List.map_append, List.map_replicate, List.map_nil,
    show Char.toLower 'm' = 'm' from by decide, show Char.toLower 'e' = 'e' from by decide,
    show Char.toLower 'r' = 'r' from by decide, show Char.toLower 'g' = 'g' from by decide,
    show Char.toLower ' ' = ' ' from by decide, show Char.toLower 'z' = 'z' from by decide]

/-- The counterexample document has 13001 characters. -/
theorem c2_len : c2Chars.length = 13001 := by
  unfold c2Chars c2Tail
  simp only [List.length_cons, List.length_append, List.length_replicate,
    List.length_nil]

/-- No item pattern matches anywhere in the counterexample document (every
item pattern must start at a letter i). -/
theorem itemRE_findAll_c2 (major minor : Nat) : findAll (itemRE major minor) c2Text.data = [] := by
  apply findAll_nil_of (itemRE major minor) (fun a => lowEq a 'i') rfl
  exact c2Chars_all _ (by decide) (by decide) (by decide) (by decide) (by decide) (by decide)

/-- The counterexample document yields no item blocks. -/
theorem itemBlocks_c2 : itemBlocks c2Text = [] := by
  unfold itemBlocks
  rw [List.filterMap_eq_nil_iff]
  intro ip hip
  simp only [itemRE_findAll_c2]

/-- The dollar-amount pattern finds nothing in the counterexample document. -/
theorem finDollar_c2 : findAll finDollarRE c2Text.data = [] := by
  apply findAll_nil_of finDollarRE (fun a => lowEq a '$') rfl
  exact c2Chars_all _ (by decide) (by decide) (by decide) (by decide) (by decide) (by decide)

/-- The million/billion pattern finds nothing in the counterexample
document. -/
theorem finMagnitude_c2 : findAll finMagnitudeRE c2Text.data = [] := by
  apply findAll_nil_of finMagnitudeRE (fun c => pyIsDigit c || c = ',') rfl
  exact c2Chars_all _ (by decide) (by decide) (by decide) (by decide) (by decide) (by decide)

/-- The shares pattern finds nothing in the counterexample document. -/
theorem finShares_c2 : findAll finSharesRE c2Text.data = [] := by
  apply findAll_nil_of finSharesRE (fun c => pyIsDigit c || c = ',') rfl
  exact c2Chars_all _ (by decide) (by decide) (by decide) (by decide) (by decide) (by decide)

/-- The percentage pattern finds nothing in the counterexample document. -/
theorem finPercent_c2 : findAll finPercentRE c2Text.data = [] := by
  apply findAll_nil_of finPercentRE (fun c => pyIsDigit c || c = ',') rfl
  exact c2Chars_all _ (by decide) (by decide) (by decide) (by decide) (by decide) (by decide)

/-- No financial figures are extracted from the counterexample document. -/
theorem finTexts_c2 : extract_financial_numbers (fun l => l.dedup) c2Text = [] := by
  unfold extract_financial_numbers financialPatterns
  simp only [List.map_cons, List.map_nil, finDollar_c2, finMagnitude_c2, finShares_c2,
    finPercent_c2]
  rfl

/-- The counterexample document produces no figures line. -/
theorem figuresLine_c2 : figuresLine (fun l => l.dedup) c2Text = [] := by
  unfold figuresLine
  rw [finTexts_c2]
  rfl

/-- The counterexample document's string length. -/
theorem c2Text_len : c2Text.length = 13001 := c2_len

/-- The counterexample sentence scores at least 15 (the keyword merger occurs,
weight 1.5 scaled by ten), so it passes the 1.5 threshold. -/
theorem sentWeight_c2_ge : 15 ≤ sentWeight c2Text := by
  rw [sentWeight_eq_sum]
  have hmem : (fun kw : String × Nat => if isSubstr kw.1 (lowerStr c2Text) then kw.2 else 0)
        ("merger", 15)
      ∈ ALL_KEYWORDS.map (fun kw => if isSubstr kw.1 (lowerStr c2Text) then kw.2 else 0) :=
    List.mem_map_of_mem _ (by rw [ALL_KEYWORDS_eq]; decide)
  have hms : isSubstr "merger" (lowerStr c2Text) = true := by
    rw [lowerStr_c2]
    show isSubstrChars "merger".data c2Chars = true
    unfold c2Chars
    decide
  calc (15 : Nat)
      = (fun kw : String × Nat => if isSubstr kw.1 (lowerStr c2Text) then kw.2 else 0)
          ("merger", 15) := by
        show 15 = if isSubstr "merger" (lowerStr c2Text) then 15 else 0
        rw [hms]
        rfl
    _ ≤ _ := List.single_le_sum (fun x _ => Nat.zero_le x) _ hmem

/-- Stripping the counterexample document as a string leaves it unchanged. -/
theorem stripStr_c2 : stripStr (⟨c2Chars⟩ : String) = c2Text := by
  unfold stripStr
  rw [show (⟨c2Chars⟩ : String).data = c2Chars from rfl, stripChars_c2]
  rfl

/-- The per-sentence selector of extract_important_content: drop sentences
shorter than 40 characters or scoring below the threshold, keep the rest with
their scores. -/
def c2Sel : List Char → Option (String × Nat) :=
  fun cs =>
    if (stripStr ⟨cs⟩).length < 40 then none
    else if 15 ≤ sentWeight (stripStr ⟨cs⟩) then
      some (stripStr ⟨cs⟩, sentWeight (stripStr ⟨cs⟩))
    else none

/-- The selector keeps any long enough sentence that meets the threshold. -/
theorem c2Sel_spec (s : String) (hs : ¬ s.length < 40) (hw : 15 ≤ sentWeight s) :
    (if s.length < 40 then (none : Option (String × Nat))
     else if 15 ≤ sentWeight s then some (s, sentWeight s) else none)
      = some (s, sentWeight s) := by
  rw [if_neg hs, if_pos hw]

/-- The selector keeps the counterexample sentence. -/
theorem c2Sel_c2 : c2Sel c2Chars = some (c2Text, sentWeight c2Text) := by
  have h1 : c2Sel c2Chars
      = (if c2Text.length < 40 then (none : Option (String × Nat))
         else if 15 ≤ sentWeight c2Text then some (c2Text, sentWeight c2Text) else none) := by
    unfold c2Sel
    rw [stripStr_c2]
  have h40 : ¬ c2Text.length < 40 := by
    rw [c2Text_len]
    omega
  exact h1.trans (c2Sel_spec c2Text h40 sentWeight_c2_ge)

/-- Sentence splitting returns the counterexample document whole. -/
theorem splitTerm_c2 : splitTermChars c2Chars = [c2Chars] := by
  unfold splitTermChars
  rw [splitTermGo_no_delim c2Chars
    (c2Chars_all _ (by decide) (by decide) (by decide) (by decide) (by decide) (by decide)) []]
  rfl

/-- The counterexample document's only scored sentence is the document
itself. -/
theorem scoredSentences_c2 :
    scoredSentences c2Text = [(c2Text, sentWeight c2Text)] := by
  have h1 : scoredSentences c2Text = List.filterMap c2Sel [c2Chars] := by
    show List.filterMap c2Sel (splitTermChars c2Text.data) = List.filterMap c2Sel [c2Chars]
    rw [show c2Text.data = c2Chars from rfl, splitTerm_c2]
  have h2 : List.filterMap c2Sel [c2Chars] = [(c2Text, sentWeight c2Text)] := by
    rw [List.filterMap_cons_some c2Sel_c2]
    rfl
  exact h1.trans h2

/-- The counterexample document's top-sentence list is the document itself. -/
theorem topSentences_c2 : topSentences c2Text = [c2Text] := by
  have h1 : topSentences c2Text
      = ((sortByKeyDesc (fun p => p.2) [(c2Text, sentWeight c2Text)]).take 12).map
          (fun p => p.1) := by
    unfold topSentences
    rw [scoredSentences_c2]
  exact h1.trans rfl

/-- The counterexample document's important-parts list is the single
13001-character sentence. -/
theorem importantParts_c2 : importantParts (fun l => l.dedup) c2Text = [c2Text] := by
  have h1 : importantParts (fun l => l.dedup) c2Text = [] ++ [c2Text] ++ [] := by
    unfold importantParts
    rw [itemBlocks_c2, topSentences_c2, figuresLine_c2]
  exact h1.trans rfl

/-- The joined distillate of the counterexample document is the document
itself. -/
theorem combined_c2 : combinedDistillate (fun l => l.dedup) c2Text = c2Text := by
  have h1 : combinedDistillate (fun l => l.dedup) c2Text
      = joinSep "\n\n" (([c2Text]).take 15) := by
    unfold combinedDistillate
    rw [importantParts_c2]
  exact h1.trans rfl

/-- extract_important_content returns the counterexample document whole: its
token estimate 13001 / 4 = 3250 stays at or below the 4500 soft ceiling, so
the 12000-character clip never runs. -/
theorem extract_c2 :
    extractImportantContent (fun l => l.dedup) (fun s => s.length / 4) c2Text = c2Text := by
  have h1 : extractImportantContent (fun l => l.dedup) (fun s => s.length / 4) c2Text
      = (if 4500 < c2Text.length / 4 then (⟨c2Text.data.take 12000⟩ : String) else c2Text) := by
    unfold extractImportantContent
    rw [combined_c2]
  have h2 : ¬ 4500 < c2Text.length / 4 := by
    rw [c2Text_len]
    omega
  exact h1.trans (if_neg h2)

/-- Claim C2 fails as stated: on the counterexample document the estimated
token count of the distillate stays at or below the 4500 soft ceiling, so no
truncation is triggered, and the assembled output is 13001 characters long -
above the claimed unconditional 12000-character ceiling. -/
theorem c2_counterexample :
    (combinedDistillate (fun l => l.dedup) c2Text).length / 4 ≤ 4500 ∧
    12000 < (extractImportantContent (fun l => l.dedup) (fun s => s.length / 4) c2Text).length := by
  constructor
  · rw [combined_c2, c2Text_len]
    omega
  · rw [extract_c2, c2Text_len]
    omega
